import Mathlib

/-!
# ATOMiK validator kit: the simulated HAL (`atomik_core_sim.c`)

A shallow embedding of the hardware abstraction layer and the properties of its
specification.

Conventions of the embedding.

* The single static `g_device` is passed explicitly: every operation takes the
  device record before the call and returns the record after it.
* A handle is either `NULL` or the address of `g_device`.
* Unsigned machine integers are naturals, reduced `% 2 ^ w` where the C code can wrap.
* A `double` is the rational number it denotes.  Every floating-point operation
  and literal of the source is followed by the rounding `fl : ℚ → ℚ`.  The
  function `binary64` is IEEE-754 round-to-nearest-even with a 53 bit significand
  (all quantities of this program stay far inside the normal exponent range);
  `id` reads the arithmetic exactly over the rationals.
* The platform is the one the sources are written for: a little-endian host (the
  loader reads the frequency with `fread` into a `uint32_t`), a 64 bit `size_t`, and
  `double` operations rounded one by one (no fused multiply-add).
* `rand()` draws from an explicit stream of naturals.
* Text written by `printf` is not part of the state; only the obfuscated preview
  of `atomik_secure_send` is returned, as the list of the numbers it prints.
-/

namespace Atomik

/-! ## Bytes, files and the C library calls the loader uses -/

/-- An octet. -/
abbrev Byte := Fin 256

/-- Stream of the values successive calls of `rand()` return. -/
abbrev Rng := Nat → Nat

/-- One call of `rand()`: the value drawn and the rest of the stream. -/
def rand (s : Rng) : Nat × Rng := (s 0, fun i => s (i + 1))

/-- A stdio stream opened for reading: the bytes of the file and the read position. -/
structure FILE where
  bytes : List Byte
  pos : Nat

/-- Result of `fopen(filepath, "rb")`, given what the path holds (`none`: no such file). -/
def fopen (content : Option (List Byte)) : Option FILE :=
  content.map fun b => { bytes := b, pos := 0 }

/-- Behaviour of `fread(ptr, size, nmemb, f)`: the bytes transferred, the number of complete
items read, and the advanced stream. -/
def fread (size nmemb : Nat) (f : FILE) : List Byte × Nat × FILE :=
  let got := (f.bytes.drop f.pos).take (size * nmemb)
  (got, got.length / size, { f with pos := f.pos + got.length })

/-- Behaviour of `fseek(f, 0, SEEK_END)`. -/
def fseek_end (f : FILE) : FILE := { f with pos := f.bytes.length }

/-- Behaviour of `ftell(f)`. -/
def ftell (f : FILE) : Int := f.pos

/-- Memory of an object after `got` was written at its start: the bytes beyond keep
their old value. -/
def store (old got : List Byte) : List Byte := got ++ old.drop got.length

/-- The four bytes of a `uint32_t` object, least significant first. -/
def u32_bytes (n : Nat) : List Byte :=
  [Fin.ofNat (n % 256), Fin.ofNat (n / 256 % 256), Fin.ofNat (n / 65536 % 256),
   Fin.ofNat (n / 16777216 % 256)]

/-- Value of a `uint32_t` object from its four bytes (little endian). -/
def le32 (b : List Byte) : Nat :=
  (b.getD 0 0).val + 256 * (b.getD 1 0).val + 65536 * (b.getD 2 0).val
    + 16777216 * (b.getD 3 0).val

/-- Behaviour of `strncmp(a, b, n)` on byte strings: the first difference within `n`
characters decides, and the comparison stops after a common NUL. -/
def strncmp : List Byte → List Byte → Nat → Int
  | _, _, 0 => 0
  | [], _, _ + 1 => 0
  | _ :: _, [], _ + 1 => 0
  | a :: as, b :: bs, n + 1 =>
    if a ≠ b then (a.val : Int) - (b.val : Int)
    else if a = 0 then 0
    else strncmp as bs n

/-- The string literal `"ATOM"`, with its terminating NUL. -/
def ATOM : List Byte := [65, 84, 79, 77, 0]

/-- The characters of `"G_VER_"`. -/
def G_VER : List Byte := [71, 95, 86, 69, 82, 95]

/-- Decimal digits of `n`, most significant first, onto `acc`. -/
def decimalAux : Nat → Nat → List Byte → List Byte
  | 0, _, acc => acc
  | fuel + 1, n, acc =>
    if n / 10 = 0 then Fin.ofNat (48 + n % 10) :: acc
    else decimalAux fuel (n / 10) (Fin.ofNat (48 + n % 10) :: acc)

/-- What `%d` prints for a non-negative `int`. -/
def decimal (n : Nat) : List Byte := decimalAux (n + 1) n []

/-- Behaviour of `snprintf(buf, size, ...)` when the formatted text is `text`: at most
`size - 1` characters and a NUL are written, the rest of `buf` is left as it was. -/
def snprintf (buf : List Byte) (size : Nat) (text : List Byte) : List Byte :=
  if size = 0 then buf else store buf (text.take (size - 1) ++ [0])

/-- The C string a buffer holds: its bytes before the first NUL. -/
def cstr (buf : List Byte) : List Byte := buf.takeWhile fun c => c ≠ 0

/-- Number a string of decimal digits denotes. -/
def atoi (s : List Byte) : Nat := s.foldl (fun acc c => 10 * acc + (c.val - 48)) 0

/-- The version a derived id `"G_VER_<n>"` names: the number after its six-character
stem. -/
def version_of_id (id : List Byte) : Nat := atoi ((cstr id).drop 6)

/-- Upper-case hexadecimal digit of `d`. -/
def hexDigit (d : Nat) : Byte := if d < 10 then Fin.ofNat (48 + d) else Fin.ofNat (55 + d)

/-- Hexadecimal digits of `n`, most significant first, onto `acc`. -/
def hexAux : Nat → Nat → List Byte → List Byte
  | 0, _, acc => acc
  | fuel + 1, n, acc =>
    if n / 16 = 0 then hexDigit (n % 16) :: acc
    else hexAux fuel (n / 16) (hexDigit (n % 16) :: acc)

/-- What `%02X` prints for a non-negative `int`: its hexadecimal digits, padded with a
zero to two characters. -/
def fmt_02X (n : Nat) : List Byte :=
  if (hexAux (n + 1) n []).length < 2 then 48 :: hexAux (n + 1) n [] else hexAux (n + 1) n []

/-! ## IEEE-754 binary64 rounding -/

/-- Number of binary digits of `n`, by halving at most `fuel` times. -/
def bitsAux : Nat → Nat → Nat
  | 0, _ => 0
  | fuel + 1, n => if n = 0 then 0 else bitsAux fuel (n / 2) + 1

/-- Number of binary digits of `n` (0 for 0). -/
def bits (n : Nat) : Nat := bitsAux n n

/-- Nearest integer, ties to the even one. -/
def rne (x : ℚ) : ℤ :=
  if x - ⌊x⌋ < 1 / 2 then ⌊x⌋
  else if 1 / 2 < x - ⌊x⌋ then ⌊x⌋ + 1
  else if ⌊x⌋ % 2 = 0 then ⌊x⌋ else ⌊x⌋ + 1

/-- Binary exponent of a nonzero rational: the `e` with `2 ^ e ≤ |x| < 2 ^ (e + 1)`. -/
def ilog2 (x : ℚ) : ℤ :=
  if |x| < (2 : ℚ) ^ ((bits x.num.natAbs : ℤ) - (bits x.den : ℤ))
  then (bits x.num.natAbs : ℤ) - (bits x.den : ℤ) - 1
  else (bits x.num.natAbs : ℤ) - (bits x.den : ℤ)

/-- Round to the nearest binary64 number, ties to even: the significand has 53 bits, so
the result is a multiple of `2 ^ (e - 52)` for the binary exponent `e` of `x`. -/
def binary64 (x : ℚ) : ℚ :=
  if x = 0 then 0
  else (rne (x / (2 : ℚ) ^ (ilog2 x - 52)) : ℚ) * (2 : ℚ) ^ (ilog2 x - 52)

/-! ## `atomik_core.h` -/

/-- Error codes of the interface. -/
inductive atomik_result_t
  | ATOMIK_SUCCESS
  | ATOMIK_ERR_NO_DEVICE
  | ATOMIK_ERR_INVALID_GENOME
  | ATOMIK_ERR_POLYMORPH_FAIL
  | ATOMIK_ERR_TIMEOUT
  deriving DecidableEq, Repr

/-- Numeric value of an error code. -/
def atomik_result_t.code : atomik_result_t → Int
  | .ATOMIK_SUCCESS => 0
  | .ATOMIK_ERR_NO_DEVICE => -1
  | .ATOMIK_ERR_INVALID_GENOME => -2
  | .ATOMIK_ERR_POLYMORPH_FAIL => -3
  | .ATOMIK_ERR_TIMEOUT => -4

/-- A device handle: `NULL`, or the address of the one simulated board. -/
inductive atomik_handle_t
  | NULL
  | g_device
  deriving DecidableEq, Repr

/-- Genome record of the interface. -/
structure atomik_genome_t where
  genome_id : List Byte
  register_map : List Nat
  compression_dict : List Byte
  polymorph_freq_ms : Nat
  deriving DecidableEq

/-- Telemetry record of the interface. -/
structure atomik_metrics_t where
  events_processed : Nat
  events_emitted : Nat
  current_watts : ℚ
  grid_save_percent : ℚ
  entropy_score : Nat
  deriving DecidableEq

/-! ## `atomik_core_sim.c` -/

/-- The simulated registers and counters of the board (`struct atomik_device_t`).
`polymorph_seed` is a `uint32_t`, `sparsity_threshold` a `float` kept as the number it
denotes, the counters are `uint64_t`. -/
structure atomik_device_internal_t where
  device_id : Int
  is_active : Int
  current_genome : atomik_genome_t
  polymorph_seed : Nat
  sparsity_threshold : ℚ
  total_in : Nat
  total_out : Nat
  deriving DecidableEq

/-- The all-zero device: the static initialiser `{0}` and the result of `memset`. -/
def zeroed : atomik_device_internal_t :=
  { device_id := 0
    is_active := 0
    current_genome :=
      { genome_id := List.replicate 16 0
        register_map := List.replicate 256 0
        compression_dict := List.replicate 8 0
        polymorph_freq_ms := 0 }
    polymorph_seed := 0
    sparsity_threshold := 0
    total_in := 0
    total_out := 0 }

/-- Model of `atomik_init`: reseeds `rand` from the clock, so the stream becomes the one
`srand` fixes for that seed. -/
def atomik_init (srand : Nat → Rng) (time : Nat) : atomik_result_t × Rng :=
  (.ATOMIK_SUCCESS, srand (time % 2 ^ 32))

/-- Model of `atomik_open`. -/
def atomik_open (device_id : Int) (g : atomik_device_internal_t) :
    atomik_handle_t × atomik_device_internal_t :=
  if device_id ≠ 0 then (.NULL, g)
  else if g.is_active ≠ 0 then (.g_device, g)
  else
    (.g_device,
      { zeroed with device_id := device_id, is_active := 1, sparsity_threshold := 90 })

/-- Model of `atomik_close`. -/
def atomik_close (dev : atomik_handle_t) (g : atomik_device_internal_t) :
    atomik_device_internal_t :=
  match dev with
  | .NULL => g
  | .g_device => { g with is_active := 0 }

/-- Model of `atomik_set_polymorphism`; `seed` is a `uint64_t`, narrowed by the cast
`(uint32_t)seed` when stored. -/
def atomik_set_polymorphism (dev : atomik_handle_t) (seed frequency_ms : Nat)
    (g : atomik_device_internal_t) : atomik_result_t × atomik_device_internal_t :=
  match dev with
  | .NULL => (.ATOMIK_ERR_NO_DEVICE, g)
  | .g_device =>
    (.ATOMIK_SUCCESS,
      { g with
        polymorph_seed := seed % 2 ^ 32
        current_genome := { g.current_genome with polymorph_freq_ms := frequency_ms } })

/-- Indeterminate initial contents of the locals `version` and `poly_freq` of
`atomik_load_genome`, which a short file leaves (partly) unwritten. -/
structure Uninit where
  version : Byte
  poly_freq : Nat

/-- Model of `atomik_load_genome`; `file` is what `filepath` holds (`none`: it cannot be
opened). -/
def atomik_load_genome (dev : atomik_handle_t) (file : Option (List Byte)) (u : Uninit)
    (g : atomik_device_internal_t) : atomik_result_t × atomik_device_internal_t :=
  match dev with
  | .NULL => (.ATOMIK_ERR_NO_DEVICE, g)
  | .g_device =>
    match fopen file with
    | none => (.ATOMIK_ERR_INVALID_GENOME, g)
    | some f =>
      let r := fread 1 4 f
      let magic := r.1
      if r.2.1 ≠ 4 then (.ATOMIK_ERR_INVALID_GENOME, g)
      else if strncmp magic ATOM 4 ≠ 0 then (.ATOMIK_ERR_INVALID_GENOME, g)
      else
        let rv := fread 1 1 r.2.2
        let version : Byte := rv.1.headD u.version
        let rf := fread 4 1 rv.2.2
        let poly_freq : Nat := le32 (store (u32_bytes u.poly_freq) rf.1)
        let f := fseek_end rf.2.2
        let dna_size : Int := ftell f - 9
        if dna_size < 0 then (.ATOMIK_ERR_INVALID_GENOME, g)
        else
          let g1 : atomik_device_internal_t :=
            { g with
              current_genome :=
                { g.current_genome with
                  polymorph_freq_ms := poly_freq
                  genome_id :=
                    snprintf g.current_genome.genome_id 16 (G_VER ++ decimal version.val) } }
          if poly_freq > 0 then
            (.ATOMIK_SUCCESS, (atomik_set_polymorphism dev 0xCAFEBABE poly_freq g1).2)
          else (.ATOMIK_SUCCESS, g1)

/-- Model of `atomik_verify_genome`. -/
def atomik_verify_genome (_dev : atomik_handle_t) (_expected : Option atomik_genome_t)
    (g : atomik_device_internal_t) : atomik_result_t × atomik_device_internal_t :=
  (.ATOMIK_SUCCESS, g)

/-- The loop of `atomik_secure_send` that prints the preview: `n` draws, each reduced
`% 0xFF`. -/
def noise : Nat → Rng → List Nat × Rng
  | 0, rng => ([], rng)
  | n + 1, rng =>
    let r := rand rng
    let rest := noise n r.2
    (r.1 % 0xFF :: rest.1, rest.2)

/-- The local `compressed_len` of `atomik_secure_send`: `(size_t)(len * 0.08)`, raised to 1
when it is below 1. -/
def compressed_len (fl : ℚ → ℚ) (len : Nat) : Nat :=
  if ⌊fl (fl (len : ℚ) * fl (8 / 100))⌋.toNat < 1 then 1
  else ⌊fl (fl (len : ℚ) * fl (8 / 100))⌋.toNat

/-- Model of `atomik_secure_send`: result, device, random stream and the numbers printed
as the preview.  The buffer `data` is never read. -/
def atomik_secure_send (fl : ℚ → ℚ) (dev : atomik_handle_t) (_data : List Byte)
    (len : Nat) (g : atomik_device_internal_t) (rng : Rng) :
    atomik_result_t × atomik_device_internal_t × Rng × List Nat :=
  match dev with
  | .NULL => (.ATOMIK_ERR_NO_DEVICE, g, rng, [])
  | .g_device =>
    let total_in := (g.total_in + len) % 2 ^ 64
    let total_out := (g.total_out + compressed_len fl len) % 2 ^ 64
    let p := noise (if len > 10 then 10 else len) rng
    (.ATOMIK_SUCCESS, { g with total_in := total_in, total_out := total_out }, p.2, p.1)

/-- A sequence of `atomik_secure_send` calls on one handle, each call given by its buffer
and its length: the device and the random stream after the last call. -/
def send_all (fl : ℚ → ℚ) (dev : atomik_handle_t) :
    List (List Byte × Nat) → atomik_device_internal_t → Rng →
      atomik_device_internal_t × Rng
  | [], g, rng => (g, rng)
  | call :: rest, g, rng =>
    send_all fl dev rest (atomik_secure_send fl dev call.1 call.2 g rng).2.1
      (atomik_secure_send fl dev call.1 call.2 g rng).2.2.1

/-- Model of `atomik_set_sparsity`. -/
def atomik_set_sparsity (dev : atomik_handle_t) (threshold_percent : ℚ)
    (g : atomik_device_internal_t) : atomik_result_t × atomik_device_internal_t :=
  match dev with
  | .NULL => (.ATOMIK_ERR_NO_DEVICE, g)
  | .g_device => (.ATOMIK_SUCCESS, { g with sparsity_threshold := threshold_percent })

/-- Model of `atomik_get_metrics`; `out_metrics` is the record the pointer designates
before the call (`none`: a null pointer), returned as it is after the call. -/
def atomik_get_metrics (fl : ℚ → ℚ) (dev : atomik_handle_t)
    (out_metrics : Option atomik_metrics_t) (g : atomik_device_internal_t) (rng : Rng) :
    atomik_result_t × Option atomik_metrics_t × Rng :=
  match dev, out_metrics with
  | .g_device, some _ =>
    let grid_save_percent : ℚ :=
      if g.total_in > 0 then
        let ratio := fl (fl (g.total_out : ℚ) / fl (g.total_in : ℚ))
        fl (fl (fl 1 - ratio) * fl 100)
      else fl 0
    let r := rand rng
    let entropy_score := (r.1 % 100 + 100) % 2 ^ 32
    let current_watts :=
      fl (fl (5 / 100) + fl (fl (fl 100 - grid_save_percent) * fl (1 / 1000)))
    (.ATOMIK_SUCCESS,
      some
        { events_processed := g.total_in
          events_emitted := g.total_out
          current_watts := current_watts
          grid_save_percent := grid_save_percent
          entropy_score := entropy_score },
      r.2)
  | _, _ => (.ATOMIK_ERR_NO_DEVICE, out_metrics, rng)

/-! ## Properties of the rounding -/

/-- With enough fuel, `n` has exactly `bitsAux fuel n` binary digits. -/
theorem bitsAux_spec : ∀ fuel n : Nat, n ≤ fuel →
    n < 2 ^ bitsAux fuel n ∧ (n ≠ 0 → 2 ^ bitsAux fuel n ≤ 2 * n) := by
  intro fuel
  induction fuel with
  | zero =>
    intro n hn
    have : n = 0 := by omega
    subst this
    simp [bitsAux]
  | succ k ih =>
    intro n hn
    by_cases h0 : n = 0
    · subst h0
      simp [bitsAux]
    · have hk : n / 2 ≤ k := by omega
      obtain ⟨h1, h2⟩ := ih (n / 2) hk
      simp only [bitsAux, h0, if_false, pow_succ]
      constructor
      · omega
      · intro _
        by_cases h3 : n / 2 = 0
        · have hb : bitsAux k (n / 2) = 0 := by
            rw [h3]
            cases k <;> simp [bitsAux]
          rw [hb]
          omega
        · have := h2 h3
          omega

/-- A nonzero `n` satisfies `2 ^ (bits n - 1) ≤ n < 2 ^ bits n`. -/
theorem bits_spec (n : Nat) (h : n ≠ 0) : n < 2 ^ bits n ∧ 2 ^ bits n ≤ 2 * n :=
  ⟨(bitsAux_spec n n le_rfl).1, (bitsAux_spec n n le_rfl).2 h⟩

/-- The binary exponent brackets the magnitude. -/
theorem ilog2_spec (x : ℚ) (hx : x ≠ 0) :
    (2 : ℚ) ^ ilog2 x ≤ |x| ∧ |x| < (2 : ℚ) ^ (ilog2 x + 1) := by
  have hn : x.num.natAbs ≠ 0 := by
    simpa using hx
  have hd : x.den ≠ 0 := x.den_nz
  obtain ⟨n1, n2⟩ := bits_spec _ hn
  obtain ⟨d1, d2⟩ := bits_spec _ hd
  have habs : |x| = (x.num.natAbs : ℚ) / (x.den : ℚ) := by
    conv_lhs => rw [← Rat.num_div_den x]
    rw [abs_div, Nat.abs_cast]
    congr 1
    rw [Nat.cast_natAbs, Int.cast_abs]
  have hdpos : (0 : ℚ) < x.den := by exact_mod_cast Nat.pos_of_ne_zero hd
  have n1q : (x.num.natAbs : ℚ) < 2 ^ bits x.num.natAbs := by exact_mod_cast n1
  have n2q : (2 : ℚ) ^ bits x.num.natAbs ≤ 2 * x.num.natAbs := by exact_mod_cast n2
  have d1q : (x.den : ℚ) < 2 ^ bits x.den := by exact_mod_cast d1
  have d2q : (2 : ℚ) ^ bits x.den ≤ 2 * x.den := by exact_mod_cast d2
  have hpn : (0 : ℚ) < 2 ^ bits x.num.natAbs := by positivity
  have hpd : (0 : ℚ) < 2 ^ bits x.den := by positivity
  have e0 : (2 : ℚ) ^ ((bits x.num.natAbs : ℤ) - (bits x.den : ℤ))
      = 2 ^ bits x.num.natAbs / 2 ^ bits x.den := by
    rw [zpow_sub₀ (by norm_num), zpow_natCast, zpow_natCast]
  unfold ilog2
  split_ifs with h
  · constructor
    · rw [zpow_sub₀ (by norm_num), e0, zpow_one, habs, div_div, div_le_div_iff₀ (by positivity) hdpos]
      nlinarith
    · simpa using h
  · constructor
    · exact not_lt.mp h
    · rw [zpow_add₀ (by norm_num), e0, zpow_one, habs, div_mul_eq_mul_div,
        div_lt_div_iff₀ hdpos hpd]
      nlinarith

/-- Rounding to the nearest integer moves to the floor or to the next integer. -/
theorem rne_bounds (x : ℚ) : ⌊x⌋ ≤ rne x ∧ rne x ≤ ⌊x⌋ + 1 := by
  unfold rne
  split_ifs <;> omega

/-- Integers are fixed by rounding to the nearest integer. -/
theorem rne_intCast (k : ℤ) : rne (k : ℚ) = k := by
  simp [rne]

/-- Rounding to the nearest integer is monotone. -/
theorem rne_mono {x y : ℚ} (h : x ≤ y) : rne x ≤ rne y := by
  have hf : ⌊x⌋ ≤ ⌊y⌋ := Int.floor_mono h
  rcases hf.lt_or_eq with hlt | heq
  · have := (rne_bounds x).2
    have := (rne_bounds y).1
    omega
  · unfold rne
    rw [heq]
    split_ifs <;> first | omega | linarith

/-- Powers of two compare as their exponents. -/
theorem two_zpow_lt_iff (a b : ℤ) : (2 : ℚ) ^ a < 2 ^ b ↔ a < b :=
  zpow_lt_zpow_iff_right₀ (by norm_num)

/-- A number `k * 2 ^ j` with `k < 2 ^ 53` is a binary64 number: rounding keeps it. -/
theorem binary64_scaled (k : ℕ) (j : ℤ) (hk : k < 2 ^ 53) :
    binary64 ((k : ℚ) * 2 ^ j) = (k : ℚ) * 2 ^ j := by
  by_cases hk0 : k = 0
  · subst hk0
    simp [binary64]
  have hkpos : (0 : ℚ) < k := by exact_mod_cast Nat.pos_of_ne_zero hk0
  have h2j : (0 : ℚ) < 2 ^ j := by positivity
  have hxpos : (0 : ℚ) < (k : ℚ) * 2 ^ j := by positivity
  obtain ⟨h1, _⟩ := ilog2_spec _ hxpos.ne'
  rw [abs_of_pos hxpos] at h1
  have hlt : (2 : ℚ) ^ ilog2 ((k : ℚ) * 2 ^ j) < 2 ^ (53 + j) := by
    have hk' : (k : ℚ) < 2 ^ (53 : ℕ) := by exact_mod_cast hk
    calc (2 : ℚ) ^ ilog2 ((k : ℚ) * 2 ^ j) ≤ (k : ℚ) * 2 ^ j := h1
      _ < 2 ^ (53 : ℕ) * 2 ^ j := by nlinarith
      _ = 2 ^ (53 + j) := by
        rw [zpow_add₀ (by norm_num)]
        norm_num
  have he : ilog2 ((k : ℚ) * 2 ^ j) < 53 + j := (two_zpow_lt_iff _ _).1 hlt
  obtain ⟨t, ht⟩ : ∃ t : ℕ, (t : ℤ) = j - (ilog2 ((k : ℚ) * 2 ^ j) - 52) :=
    ⟨(j - (ilog2 ((k : ℚ) * 2 ^ j) - 52)).toNat, Int.toNat_of_nonneg (by omega)⟩
  have hq : (k : ℚ) * 2 ^ j / 2 ^ (ilog2 ((k : ℚ) * 2 ^ j) - 52)
      = (((k * 2 ^ t : ℕ) : ℤ) : ℚ) := by
    rw [mul_div_assoc, ← zpow_sub₀ (by norm_num), ← ht, zpow_natCast]
    push_cast
    ring
  unfold binary64
  rw [if_neg hxpos.ne', hq, rne_intCast]
  rw [← hq]
  field_simp

/-- Every natural number below `2 ^ 53` converts to `double` exactly. -/
theorem binary64_natCast (n : ℕ) (hn : n < 2 ^ 53) : binary64 (n : ℚ) = n := by
  simpa using binary64_scaled n 0 hn

/-- A positive number rounds into the closed binade it lies in. -/
theorem binary64_pos_bounds (x : ℚ) (hx : 0 < x) :
    (2 : ℚ) ^ ilog2 x ≤ binary64 x ∧ binary64 x ≤ 2 ^ (ilog2 x + 1) := by
  obtain ⟨h1, h2⟩ := ilog2_spec x hx.ne'
  rw [abs_of_pos hx] at h1 h2
  have hu : (0 : ℚ) < 2 ^ (ilog2 x - 52) := by positivity
  have e1 : (2 : ℚ) ^ ilog2 x = ((2 ^ 52 : ℤ) : ℚ) * 2 ^ (ilog2 x - 52) := by
    rw [zpow_sub₀ (by norm_num)]
    push_cast
    field_simp
    norm_num
    ring
  have e2 : (2 : ℚ) ^ (ilog2 x + 1) = ((2 ^ 53 : ℤ) : ℚ) * 2 ^ (ilog2 x - 52) := by
    rw [zpow_sub₀ (by norm_num), zpow_add₀ (by norm_num)]
    push_cast
    field_simp
    norm_num
    ring
  have q1 : ((2 ^ 52 : ℤ) : ℚ) ≤ x / 2 ^ (ilog2 x - 52) := by
    rw [le_div_iff₀ hu, ← e1]
    exact h1
  have q2 : x / 2 ^ (ilog2 x - 52) ≤ ((2 ^ 53 : ℤ) : ℚ) := by
    rw [div_le_iff₀ hu, ← e2]
    exact h2.le
  have r1 := rne_mono q1
  have r2 := rne_mono q2
  rw [rne_intCast] at r1 r2
  unfold binary64
  rw [if_neg hx.ne', e1, e2]
  constructor
  · exact mul_le_mul_of_nonneg_right (by exact_mod_cast r1) hu.le
  · exact mul_le_mul_of_nonneg_right (by exact_mod_cast r2) hu.le

/-- A positive number rounds to a positive number. -/
theorem binary64_pos (x : ℚ) (hx : 0 < x) : 0 < binary64 x :=
  lt_of_lt_of_le (by positivity) (binary64_pos_bounds x hx).1

/-- Rounding is monotone on the non-negative rationals. -/
theorem binary64_mono {x y : ℚ} (hx : 0 ≤ x) (hxy : x ≤ y) : binary64 x ≤ binary64 y := by
  rcases hx.lt_or_eq with hxpos | hx0
  · have hypos : 0 < y := lt_of_lt_of_le hxpos hxy
    obtain ⟨x1, x2⟩ := ilog2_spec x hxpos.ne'
    obtain ⟨y1, y2⟩ := ilog2_spec y hypos.ne'
    rw [abs_of_pos hxpos] at x1 x2
    rw [abs_of_pos hypos] at y1 y2
    have hlt : (2 : ℚ) ^ ilog2 x < 2 ^ (ilog2 y + 1) := by linarith
    have he : ilog2 x < ilog2 y + 1 := (two_zpow_lt_iff _ _).1 hlt
    rcases (Int.lt_add_one_iff.1 he).lt_or_eq with hl | heq
    · have b1 := (binary64_pos_bounds x hxpos).2
      have b2 := (binary64_pos_bounds y hypos).1
      have : (2 : ℚ) ^ (ilog2 x + 1) ≤ 2 ^ ilog2 y :=
        zpow_le_zpow_right₀ (by norm_num) (by omega)
      linarith
    · unfold binary64
      rw [if_neg hxpos.ne', if_neg hypos.ne', heq]
      have hu : (0 : ℚ) < 2 ^ (ilog2 y - 52) := by positivity
      have hq : x / 2 ^ (ilog2 y - 52) ≤ y / 2 ^ (ilog2 y - 52) :=
        div_le_div_of_nonneg_right hxy hu.le
      exact mul_le_mul_of_nonneg_right (by exact_mod_cast rne_mono hq) hu.le
  · subst hx0
    rcases hxy.lt_or_eq with hypos | hy0
    · have := binary64_pos y hypos
      simpa [binary64] using this.le
    · rw [← hy0]


/-- The `double` literal `0.08`. -/
theorem binary64_0_08 : binary64 (8 / 100) = 5764607523034235 / 2 ^ 56 := by decide!

/-- The compressed length is at least 1. -/
theorem compressed_len_pos (fl : ℚ → ℚ) (len : ℕ) : 1 ≤ compressed_len fl len := by
  unfold compressed_len
  split_ifs <;> omega


/-- The compressed length stays below the length, for lengths from 2 up to `2 ^ 53`. -/
theorem compressed_len_lt (fl : ℚ → ℚ) (hfl : fl = id ∨ fl = binary64) (len : ℕ)
    (h2 : 2 ≤ len) (h53 : len < 2 ^ 53) : compressed_len fl len < len := by
  have q2 : (2 : ℚ) ≤ len := by exact_mod_cast h2
  have key : fl (fl (len : ℚ) * fl (8 / 100)) ≤ (len : ℚ) * 2 ^ (-1 : ℤ) := by
    rcases hfl with h | h
    · subst h
      simp only [id]
      norm_num
      linarith
    · subst h
      rw [binary64_natCast len h53, binary64_0_08]
      have hle : (len : ℚ) * (5764607523034235 / 2 ^ 56) ≤ (len : ℚ) * 2 ^ (-1 : ℤ) := by
        norm_num
        linarith
      have := binary64_mono (by positivity) hle
      rwa [binary64_scaled len (-1) h53] at this
  have hfloor : ⌊fl (fl (len : ℚ) * fl (8 / 100))⌋ < (len : ℤ) := by
    rw [Int.floor_lt]
    have : (len : ℚ) * 2 ^ (-1 : ℤ) < len := by
      norm_num
      linarith
    push_cast
    linarith
  unfold compressed_len
  split_ifs <;> omega

/-- In `double` arithmetic `(1.0 - a / b) * 100.0` lies strictly between 0 and 100 for
counters `0 < a < b < 2 ^ 53`. -/
theorem grid_save_binary64_bounds (a b : ℕ) (ha : 0 < a) (hab : a < b) (hb : b < 2 ^ 53) :
    0 < binary64 (binary64 (binary64 1 - binary64 (binary64 (a : ℚ) / binary64 (b : ℚ)))
          * binary64 100) ∧
    binary64 (binary64 (binary64 1 - binary64 (binary64 (a : ℚ) / binary64 (b : ℚ)))
          * binary64 100) < 100 := by
  have c1 : binary64 1 = 1 := by decide!
  have c100 : binary64 100 = 100 := by decide!
  have clo : binary64 (1 / 2 ^ 53) = 1 / 2 ^ 53 := by decide!
  have chi : binary64 (1 - 1 / 2 ^ 53) = 1 - 1 / 2 ^ 53 := by decide!
  have dlo : 0 < binary64 (1 / 2 ^ 53 * 100) := by decide!
  have dhi : binary64 ((1 - 1 / 2 ^ 53) * 100) < 100 := by decide!
  rw [binary64_natCast a (by omega), binary64_natCast b hb, c1, c100]
  have qa : (1 : ℚ) ≤ a := by exact_mod_cast ha
  have qab : (a : ℚ) + 1 ≤ b := by exact_mod_cast hab
  have qb : (b : ℚ) < 2 ^ 53 := by exact_mod_cast hb
  have qbpos : (0 : ℚ) < b := by linarith
  have l1 : (1 : ℚ) / 2 ^ 53 ≤ (a : ℚ) / b := by
    rw [div_le_div_iff₀ (by positivity) qbpos]
    nlinarith
  have u1 : (a : ℚ) / b ≤ 1 - 1 / 2 ^ 53 := by
    have : (a : ℚ) / b ≤ 1 - 1 / b := by
      rw [div_le_iff₀ qbpos]
      field_simp
      linarith
    have : (1 : ℚ) / 2 ^ 53 ≤ 1 / b := by
      apply one_div_le_one_div_of_le qbpos qb.le
    linarith
  have l2 := binary64_mono (by positivity) l1
  have u2 := binary64_mono (by positivity) u1
  rw [clo] at l2
  rw [chi] at u2
  have l3 : (1 : ℚ) / 2 ^ 53 ≤ 1 - binary64 ((a : ℚ) / b) := by linarith
  have u3 : 1 - binary64 ((a : ℚ) / b) ≤ 1 - 1 / 2 ^ 53 := by linarith
  have l4 := binary64_mono (by positivity) l3
  have u4 := binary64_mono (by linarith [show (0 : ℚ) < 1 / 2 ^ 53 by positivity]) u3
  rw [clo] at l4
  rw [chi] at u4
  have l5 : (1 : ℚ) / 2 ^ 53 * 100 ≤ binary64 (1 - binary64 ((a : ℚ) / b)) * 100 := by
    linarith
  have u5 : binary64 (1 - binary64 ((a : ℚ) / b)) * 100 ≤ (1 - 1 / 2 ^ 53) * 100 := by
    linarith
  have l6 := binary64_mono (by positivity) l5
  have u6 := binary64_mono
    (by linarith [show (0 : ℚ) < 1 / 2 ^ 53 * 100 by positivity]) u5
  exact ⟨lt_of_lt_of_le dlo l6, lt_of_le_of_lt u6 dhi⟩

/-! ## Genome loading -/

/-- The magic check accepts exactly the four bytes "ATOM". -/
theorem strncmp_ATOM (a b c d : Byte) :
    strncmp [a, b, c, d] ATOM 4 = 0 ↔ [a, b, c, d] = [65, 84, 79, 77] := by
  have hsub : ∀ x y : Byte, x ≠ y → (x.val : Int) - (y.val : Int) ≠ 0 := by
    intro x y hxy h
    apply hxy
    apply Fin.ext
    omega
  constructor
  · intro h
    simp only [strncmp, ATOM] at h
    by_cases ha : a = 65
    · by_cases hb : b = 84
      · by_cases hc : c = 79
        · by_cases hd : d = 77
          · simp [ha, hb, hc, hd]
          · exfalso
            subst ha hb hc
            have := hsub d 77 hd
            simp [hd] at h
            omega
        · exfalso
          subst ha hb
          have := hsub c 79 hc
          simp [hc] at h
          omega
      · exfalso
        subst ha
        have := hsub b 84 hb
        simp [hb] at h
        omega
    · exfalso
      have := hsub a 65 ha
      simp [ha] at h
      omega
  · intro h
    simp only [List.cons.injEq, and_true] at h
    obtain ⟨ha, hb, hc, hd⟩ := h
    subst ha hb hc hd
    decide

/-- The state a valid source leaves: the frequency and the derived id are stored, and a
nonzero frequency also stores the seed `0xCAFEBABE`. -/
theorem load_genome_valid (v b0 b1 b2 b3 : Byte) (payload : List Byte) (u : Uninit)
    (g : atomik_device_internal_t) :
    atomik_load_genome .g_device
        (some ([65, 84, 79, 77] ++ [v] ++ [b0, b1, b2, b3] ++ payload)) u g
      = (.ATOMIK_SUCCESS,
          { g with
            polymorph_seed :=
              if 0 < b0.val + 256 * b1.val + 65536 * b2.val + 16777216 * b3.val
              then 0xCAFEBABE else g.polymorph_seed
            current_genome :=
              { g.current_genome with
                polymorph_freq_ms :=
                  b0.val + 256 * b1.val + 65536 * b2.val + 16777216 * b3.val
                genome_id :=
                  snprintf g.current_genome.genome_id 16 (G_VER ++ decimal v.val) } }) := by
  have hm : strncmp [65, 84, 79, 77] ATOM 4 = 0 := by decide
  have hlen : ¬ ((payload.length : Int) + 1 + 1 + 1 + 1 + 1 + 1 + 1 + 1 + 1 < 9) := by omega
  by_cases hf : 0 < b0.val + 256 * b1.val + 65536 * b2.val + 16777216 * b3.val
  · simp [atomik_load_genome, fopen, fread, fseek_end, ftell, store, le32, hm,
      atomik_set_polymorphism, hf, hlen]
  · simp [atomik_load_genome, fopen, fread, fseek_end, ftell, store, le32, hm,
      atomik_set_polymorphism, hf, hlen]

/-- C1: a source "ATOM" ++ [v] ++ [b0,b1,b2,b3] ++ payload (payload of any length, the
empty one included) loads with `ATOMIK_SUCCESS`; afterwards the genome's
`polymorph_freq_ms` is the little-endian value `f` of the four bytes, and if `f > 0` the
seed is `0xCAFEBABE` and the frequency is `f`. -/
theorem C1_load_valid_source (v b0 b1 b2 b3 : Byte) (payload : List Byte) (u : Uninit)
    (g : atomik_device_internal_t) :
    (atomik_load_genome .g_device
        (some ([65, 84, 79, 77] ++ [v] ++ [b0, b1, b2, b3] ++ payload)) u g).1
      = .ATOMIK_SUCCESS ∧
    (atomik_load_genome .g_device
        (some ([65, 84, 79, 77] ++ [v] ++ [b0, b1, b2, b3] ++ payload)) u
        g).2.current_genome.polymorph_freq_ms
      = b0.val + 256 * b1.val + 65536 * b2.val + 16777216 * b3.val ∧
    (0 < b0.val + 256 * b1.val + 65536 * b2.val + 16777216 * b3.val →
      (atomik_load_genome .g_device
          (some ([65, 84, 79, 77] ++ [v] ++ [b0, b1, b2, b3] ++ payload)) u
          g).2.polymorph_seed = 0xCAFEBABE ∧
      (atomik_load_genome .g_device
          (some ([65, 84, 79, 77] ++ [v] ++ [b0, b1, b2, b3] ++ payload)) u
          g).2.current_genome.polymorph_freq_ms
        = b0.val + 256 * b1.val + 65536 * b2.val + 16777216 * b3.val) := by
  have hm : strncmp [65, 84, 79, 77] ATOM 4 = 0 := by decide
  have hlen : ¬ ((payload.length : Int) + 1 + 1 + 1 + 1 + 1 + 1 + 1 + 1 + 1 < 9) := by omega
  by_cases hf : 0 < b0.val + 256 * b1.val + 65536 * b2.val + 16777216 * b3.val
  · simp [atomik_load_genome, fopen, fread, fseek_end, ftell, store, le32, hm,
      atomik_set_polymorphism, hf, hlen]
  · simp [atomik_load_genome, fopen, fread, fseek_end, ftell, store, le32, hm,
      atomik_set_polymorphism, hf, hlen]

/-- Witness of C1 at the 9-byte source "ATOM", version 1, frequency bytes 100,0,0,0 and an
empty payload, loaded into the zeroed device. -/
theorem C1_load_valid_source_witness :
    (atomik_load_genome .g_device (some [65, 84, 79, 77, 1, 100, 0, 0, 0]) ⟨0, 0⟩
        zeroed).1 = .ATOMIK_SUCCESS ∧
    (atomik_load_genome .g_device (some [65, 84, 79, 77, 1, 100, 0, 0, 0]) ⟨0, 0⟩
        zeroed).2.polymorph_seed = 0xCAFEBABE ∧
    (atomik_load_genome .g_device (some [65, 84, 79, 77, 1, 100, 0, 0, 0]) ⟨0, 0⟩
        zeroed).2.current_genome.polymorph_freq_ms = 100 :=
  ⟨(C1_load_valid_source 1 100 0 0 0 [] ⟨0, 0⟩ zeroed).1,
    (C1_load_valid_source 1 100 0 0 0 [] ⟨0, 0⟩ zeroed).2.2 (by decide)⟩

/-- C2: a source whose first four bytes are not "ATOM" (a source shorter than four bytes
included) is refused with `ATOMIK_ERR_INVALID_GENOME` and the device record is the one
before the call. -/
theorem C2_bad_magic_rejected (src : List Byte) (u : Uninit) (g : atomik_device_internal_t)
    (h : src.take 4 ≠ [65, 84, 79, 77]) :
    atomik_load_genome .g_device (some src) u g = (.ATOMIK_ERR_INVALID_GENOME, g) := by
  match src, h with
  | [], _ => simp [atomik_load_genome, fopen, fread]
  | [_], _ => simp [atomik_load_genome, fopen, fread]
  | [_, _], _ => simp [atomik_load_genome, fopen, fread]
  | [_, _, _], _ => simp [atomik_load_genome, fopen, fread]
  | a :: b :: c :: d :: rest, h =>
    have hne : strncmp [a, b, c, d] ATOM 4 ≠ 0 := by
      intro h0
      apply h
      simpa using (strncmp_ATOM a b c d).1 h0
    simp [atomik_load_genome, fopen, fread, hne]

/-- Witness of C2 at the source "ATOX" followed by five bytes. -/
theorem C2_bad_magic_rejected_witness :
    atomik_load_genome .g_device (some [65, 84, 79, 88, 1, 100, 0, 0, 0]) ⟨0, 0⟩ zeroed
      = (.ATOMIK_ERR_INVALID_GENOME, zeroed) :=
  C2_bad_magic_rejected [65, 84, 79, 88, 1, 100, 0, 0, 0] ⟨0, 0⟩ zeroed (by decide)

/-- C3: a source that starts with "ATOM" and has between 4 and 8 bytes in all is refused
with `ATOMIK_ERR_INVALID_GENOME` and the device record is the one before the call,
whatever the version and frequency locals hold after their short reads. -/
theorem C3_short_header_rejected (rest : List Byte) (u : Uninit)
    (g : atomik_device_internal_t) (h : rest.length ≤ 4) :
    atomik_load_genome .g_device (some ([65, 84, 79, 77] ++ rest)) u g
      = (.ATOMIK_ERR_INVALID_GENOME, g) := by
  have hm : strncmp [65, 84, 79, 77] ATOM 4 = 0 := by decide
  have hlen : (rest.length : Int) + 1 + 1 + 1 + 1 < 9 := by omega
  simp [atomik_load_genome, fopen, fread, fseek_end, ftell, hm, hlen]

/-- Witness of C3 at the 8-byte source "ATOM", version 1 and three frequency bytes. -/
theorem C3_short_header_rejected_witness :
    atomik_load_genome .g_device (some [65, 84, 79, 77, 1, 100, 0, 0]) ⟨7, 9⟩ zeroed
      = (.ATOMIK_ERR_INVALID_GENOME, zeroed) :=
  C3_short_header_rejected [1, 100, 0, 0] ⟨7, 9⟩ zeroed (by decide)

/-! ## Handles and the device lifecycle -/

/-- C4, counterexample: after `open(0)` and `close` the retained handle still operates the
device.  Every operation returns `ATOMIK_SUCCESS` instead of `ATOMIK_ERR_NO_DEVICE`,
`secure_send` raises both counters and `load_genome` replaces the genome. -/
theorem C4_closed_device_counterexample :
    (atomik_close (atomik_open 0 zeroed).1 (atomik_open 0 zeroed).2).is_active = 0 ∧
    (atomik_open 0 zeroed).1 = .g_device ∧
    (atomik_secure_send binary64 .g_device [72, 69, 76, 76, 79] 5
        (atomik_close .g_device (atomik_open 0 zeroed).2) (fun _ => 0)).1
      = .ATOMIK_SUCCESS ∧
    (atomik_secure_send binary64 .g_device [72, 69, 76, 76, 79] 5
        (atomik_close .g_device (atomik_open 0 zeroed).2) (fun _ => 0)).2.1.total_in = 5 ∧
    (atomik_close .g_device (atomik_open 0 zeroed).2).total_in = 0 ∧
    (atomik_secure_send binary64 .g_device [72, 69, 76, 76, 79] 5
        (atomik_close .g_device (atomik_open 0 zeroed).2) (fun _ => 0)).2.1.total_out = 1 ∧
    (atomik_close .g_device (atomik_open 0 zeroed).2).total_out = 0 ∧
    (atomik_load_genome .g_device (some [65, 84, 79, 77, 1, 100, 0, 0, 0]) ⟨0, 0⟩
        (atomik_close .g_device (atomik_open 0 zeroed).2)).1 = .ATOMIK_SUCCESS ∧
    (atomik_load_genome .g_device (some [65, 84, 79, 77, 1, 100, 0, 0, 0]) ⟨0, 0⟩
        (atomik_close .g_device (atomik_open 0 zeroed).2)).2.current_genome
      ≠ (atomik_close .g_device (atomik_open 0 zeroed).2).current_genome ∧
    (atomik_set_polymorphism .g_device 7 25
        (atomik_close .g_device (atomik_open 0 zeroed).2)).1 = .ATOMIK_SUCCESS ∧
    (atomik_set_sparsity .g_device 50
        (atomik_close .g_device (atomik_open 0 zeroed).2)).1 = .ATOMIK_SUCCESS ∧
    (atomik_get_metrics binary64 .g_device (some ⟨0, 0, 0, 0, 0⟩)
        (atomik_close .g_device (atomik_open 0 zeroed).2) (fun _ => 0)).1
      = .ATOMIK_SUCCESS := by
  refine ⟨by decide, by decide, rfl, by decide!, by decide, by decide!, by decide, by decide!,
    by decide!, rfl, rfl, rfl⟩

/-- C4, amended: with no device handle (`NULL`) each of `load_genome`,
`set_polymorphism`, `set_sparsity`, `secure_send` and `get_metrics` returns
`ATOMIK_ERR_NO_DEVICE` and leaves the device record (counters and genome included), the
random stream and the metrics record as they were; `get_metrics` does the same for a null
metrics pointer.  `close` clears `is_active` and nothing else.  With the device handle no
operation consults `is_active`: whatever value `a` the flag holds (0 after `close`), each
operation returns the result and makes the changes it makes on `g`, and
`set_polymorphism`, `set_sparsity`, `secure_send` and `get_metrics` return
`ATOMIK_SUCCESS`. -/
theorem C4_handle_decides (fl : ℚ → ℚ) (g : atomik_device_internal_t)
    (file : Option (List Byte)) (u : Uninit) (seed frequency_ms len : Nat)
    (threshold_percent : ℚ) (data : List Byte) (rng : Rng)
    (out_metrics : Option atomik_metrics_t) (m : atomik_metrics_t) (dev : atomik_handle_t)
    (a : Int) :
    atomik_load_genome .NULL file u g = (.ATOMIK_ERR_NO_DEVICE, g) ∧
    atomik_set_polymorphism .NULL seed frequency_ms g = (.ATOMIK_ERR_NO_DEVICE, g) ∧
    atomik_set_sparsity .NULL threshold_percent g = (.ATOMIK_ERR_NO_DEVICE, g) ∧
    atomik_secure_send fl .NULL data len g rng = (.ATOMIK_ERR_NO_DEVICE, g, rng, []) ∧
    atomik_get_metrics fl .NULL out_metrics g rng
      = (.ATOMIK_ERR_NO_DEVICE, out_metrics, rng) ∧
    atomik_get_metrics fl dev none g rng = (.ATOMIK_ERR_NO_DEVICE, none, rng) ∧
    atomik_close .g_device g = { g with is_active := 0 } ∧
    atomik_close .NULL g = g ∧
    atomik_load_genome .g_device file u { g with is_active := a }
      = ((atomik_load_genome .g_device file u g).1,
          { (atomik_load_genome .g_device file u g).2 with is_active := a }) ∧
    atomik_set_polymorphism .g_device seed frequency_ms { g with is_active := a }
      = (.ATOMIK_SUCCESS,
          { (atomik_set_polymorphism .g_device seed frequency_ms g).2 with
            is_active := a }) ∧
    atomik_set_sparsity .g_device threshold_percent { g with is_active := a }
      = (.ATOMIK_SUCCESS,
          { (atomik_set_sparsity .g_device threshold_percent g).2 with is_active := a }) ∧
    atomik_secure_send fl .g_device data len { g with is_active := a } rng
      = (.ATOMIK_SUCCESS,
          { (atomik_secure_send fl .g_device data len g rng).2.1 with is_active := a },
          (atomik_secure_send fl .g_device data len g rng).2.2.1,
          (atomik_secure_send fl .g_device data len g rng).2.2.2) ∧
    atomik_get_metrics fl dev out_metrics { g with is_active := a } rng
      = atomik_get_metrics fl dev out_metrics g rng ∧
    (atomik_get_metrics fl .g_device (some m) { g with is_active := a } rng).1
      = .ATOMIK_SUCCESS := by
  refine ⟨rfl, rfl, rfl, rfl, rfl, ?_, rfl, rfl, ?_, rfl, rfl, rfl, ?_, rfl⟩
  · cases dev <;> rfl
  · cases file with
    | none => rfl
    | some src =>
      simp only [atomik_load_genome, fopen, Option.map_some', atomik_set_polymorphism]
      split_ifs <;> rfl
  · cases dev
    · rfl
    · cases out_metrics <;> rfl

/-- C10: `open(0)` on an active device returns the handle of the same device and leaves
every field of the record as it was; hence from any state a second `open(0)` changes
nothing that the first one left. -/
theorem C10_open_idempotent (g : atomik_device_internal_t) :
    (g.is_active ≠ 0 → atomik_open 0 g = (.g_device, g)) ∧
    atomik_open 0 (atomik_open 0 g).2 = atomik_open 0 g := by
  constructor
  · intro h
    simp [atomik_open, h]
  · by_cases h : g.is_active = 0
    · simp [atomik_open, h]
    · simp [atomik_open, h]

/-- Witness of C10 at an active device with a loaded frequency and nonzero counters. -/
theorem C10_open_idempotent_witness :
    atomik_open 0
        { zeroed with is_active := 1, polymorph_seed := 7, total_in := 15, total_out := 1 }
      = (.g_device,
          { zeroed with is_active := 1, polymorph_seed := 7, total_in := 15, total_out := 1 }) :=
  (C10_open_idempotent
    { zeroed with is_active := 1, polymorph_seed := 7, total_in := 15, total_out := 1 }).1
    (by decide)

/-! ## Polymorphism -/

/-- C7, counterexample: the seed `0xAABBCCDD11223344` is stored as `0x11223344`. -/
theorem C7_seed_truncated_counterexample :
    (atomik_set_polymorphism .g_device 0xAABBCCDD11223344 25
        (atomik_open 0 zeroed).2).2.polymorph_seed = 0x11223344 ∧
    (atomik_set_polymorphism .g_device 0xAABBCCDD11223344 25
        (atomik_open 0 zeroed).2).2.polymorph_seed ≠ 0xAABBCCDD11223344 := by
  constructor <;> decide

/-- C7, amended: `set_polymorphism` with a device handle returns `ATOMIK_SUCCESS`, stores
the low 32 bits of the seed and stores `frequency_ms` as given (0 included); a seed below
`2 ^ 32` is stored unchanged. -/
theorem C7_set_polymorphism_stores (seed frequency_ms : Nat)
    (g : atomik_device_internal_t) :
    (atomik_set_polymorphism .g_device seed frequency_ms g).1 = .ATOMIK_SUCCESS ∧
    (atomik_set_polymorphism .g_device seed frequency_ms g).2.polymorph_seed
      = seed % 2 ^ 32 ∧
    (atomik_set_polymorphism .g_device seed frequency_ms
        g).2.current_genome.polymorph_freq_ms = frequency_ms ∧
    (seed < 2 ^ 32 →
      (atomik_set_polymorphism .g_device seed frequency_ms g).2.polymorph_seed = seed) := by
  refine ⟨rfl, rfl, rfl, ?_⟩
  intro h
  show seed % 2 ^ 32 = seed
  exact Nat.mod_eq_of_lt h

/-- Witness of C7 at seed `0xAABB` and frequency 0 on a freshly opened device. -/
theorem C7_set_polymorphism_stores_witness :
    (atomik_set_polymorphism .g_device 0xAABB 0 (atomik_open 0 zeroed).2).2.polymorph_seed
      = 0xAABB ∧
    (atomik_set_polymorphism .g_device 0xAABB 0
        (atomik_open 0 zeroed).2).2.current_genome.polymorph_freq_ms = 0 :=
  ⟨(C7_set_polymorphism_stores 0xAABB 0 (atomik_open 0 zeroed).2).2.2.2 (by decide),
    (C7_set_polymorphism_stores 0xAABB 0 (atomik_open 0 zeroed).2).2.2.1⟩

/-! ## Secure channel counters -/

/-- Counters after a sequence of sends from a device whose counters are in range. -/
theorem send_all_counters (fl : ℚ → ℚ) :
    ∀ (calls : List (List Byte × Nat)) (g : atomik_device_internal_t) (rng : Rng),
      g.total_in < 2 ^ 64 → g.total_out < 2 ^ 64 →
      (send_all fl .g_device calls g rng).1.total_in
        = (g.total_in + (calls.map fun c => c.2).sum) % 2 ^ 64 ∧
      (send_all fl .g_device calls g rng).1.total_out
        = (g.total_out + (calls.map fun c => compressed_len fl c.2).sum) % 2 ^ 64 := by
  intro calls
  induction calls with
  | nil =>
    intro g rng h1 h2
    simp only [send_all, List.map_nil, List.sum_nil, Nat.add_zero]
    exact ⟨(Nat.mod_eq_of_lt h1).symm, (Nat.mod_eq_of_lt h2).symm⟩
  | cons call rest ih =>
    intro g rng h1 h2
    have hi : (atomik_secure_send fl .g_device call.1 call.2 g rng).2.1.total_in
        = (g.total_in + call.2) % 2 ^ 64 := rfl
    have ho : (atomik_secure_send fl .g_device call.1 call.2 g rng).2.1.total_out
        = (g.total_out + compressed_len fl call.2) % 2 ^ 64 := rfl
    obtain ⟨r1, r2⟩ := ih (atomik_secure_send fl .g_device call.1 call.2 g rng).2.1
      (atomik_secure_send fl .g_device call.1 call.2 g rng).2.2.1
      (by rw [hi]; exact Nat.mod_lt _ (by norm_num))
      (by rw [ho]; exact Nat.mod_lt _ (by norm_num))
    simp only [send_all, List.map_cons, List.sum_cons]
    rw [r1, r2, hi, ho]
    constructor
    · rw [Nat.mod_add_mod, Nat.add_assoc]
    · rw [Nat.mod_add_mod, Nat.add_assoc]

/-- Counters after `n` sends of one byte each. -/
theorem one_byte_sends (n : ℕ) (g : atomik_device_internal_t) (rng : Rng)
    (h1 : g.total_in < 2 ^ 64) (h2 : g.total_out < 2 ^ 64) :
    (send_all binary64 .g_device (List.replicate n ([0], 1)) g rng).1.total_in
      = (g.total_in + n) % 2 ^ 64 ∧
    (send_all binary64 .g_device (List.replicate n ([0], 1)) g rng).1.total_out
      = (g.total_out + n) % 2 ^ 64 := by
  have hc : compressed_len binary64 1 = 1 := by decide!
  have := send_all_counters binary64 (List.replicate n ([0], 1)) g rng h1 h2
  simpa [hc] using this

/-- C6, counterexample: after `open(0)` and a send of one byte `grid_save_percent` is 0,
not above 0 (in `double` and in exact arithmetic); after two empty sends and a send of two
bytes it is -50; and from counters `2 ^ 54 - 1`, which `2 ^ 54 - 1` one-byte sends leave, a
send of two bytes gives 0 in `double` arithmetic. -/
theorem C6_grid_save_counterexample :
    ((atomik_get_metrics binary64 .g_device (some ⟨0, 0, 0, 0, 0⟩)
        (atomik_secure_send binary64 .g_device [72] 1 (atomik_open 0 zeroed).2
          (fun _ => 0)).2.1 (fun _ => 0)).2.1.map fun m => m.grid_save_percent) = some 0 ∧
    ((atomik_get_metrics id .g_device (some ⟨0, 0, 0, 0, 0⟩)
        (atomik_secure_send id .g_device [72] 1 (atomik_open 0 zeroed).2
          (fun _ => 0)).2.1 (fun _ => 0)).2.1.map fun m => m.grid_save_percent) = some 0 ∧
    ((atomik_get_metrics binary64 .g_device (some ⟨0, 0, 0, 0, 0⟩)
        (send_all binary64 .g_device [([], 0), ([], 0), ([72, 73], 2)]
          (atomik_open 0 zeroed).2 (fun _ => 0)).1
        (fun _ => 0)).2.1.map fun m => m.grid_save_percent) = some (-50) ∧
    ((atomik_get_metrics binary64 .g_device (some ⟨0, 0, 0, 0, 0⟩)
        (atomik_secure_send binary64 .g_device [72, 73] 2
          { (atomik_open 0 zeroed).2 with total_in := 2 ^ 54 - 1, total_out := 2 ^ 54 - 1 }
          (fun _ => 0)).2.1 (fun _ => 0)).2.1.map fun m => m.grid_save_percent) = some 0 := by
  refine ⟨by decide!, by decide!, by decide!, by decide!⟩

/-- C6, amended: `grid_save_percent` is 0 right after `open(0)` of a closed device; and
after a send of at least two bytes, from a state with `total_out ≤ total_in` and with
`total_in` staying below `2 ^ 53`, it is above 0 and below 100 (in `double` and in exact
arithmetic). -/
theorem C6_grid_save_percent (fl : ℚ → ℚ) (g0 g : atomik_device_internal_t)
    (data : List Byte) (len : Nat) (rng r1 r2 : Rng) (m : atomik_metrics_t)
    (hfl : fl = id ∨ fl = binary64) (h0 : g0.is_active = 0)
    (h1 : g.total_out ≤ g.total_in) (h2 : 2 ≤ len) (h3 : g.total_in + len < 2 ^ 53) :
    ((atomik_get_metrics fl .g_device (some m) (atomik_open 0 g0).2 rng).2.1.map
        fun r => r.grid_save_percent) = some 0 ∧
    ∃ r, (atomik_get_metrics fl .g_device (some m)
            (atomik_secure_send fl .g_device data len g r1).2.1 r2).2.1 = some r ∧
      0 < r.grid_save_percent ∧ r.grid_save_percent < 100 := by
  have hfl0 : fl 0 = 0 := by
    rcases hfl with h | h <;> subst h <;> simp [binary64]
  constructor
  · have z : (atomik_open 0 g0).2.total_in = 0 := by
      simp only [atomik_open, h0]
      rfl
    simp only [atomik_get_metrics, Option.map_some', z, gt_iff_lt, lt_self_iff_false,
      if_false, hfl0]
  · have hc := compressed_len_lt fl hfl len h2 (by omega)
    have hc1 := compressed_len_pos fl len
    have hin : (g.total_in + len) % 2 ^ 64 = g.total_in + len :=
      Nat.mod_eq_of_lt (by omega)
    have hout : (g.total_out + compressed_len fl len) % 2 ^ 64
        = g.total_out + compressed_len fl len := Nat.mod_eq_of_lt (by omega)
    refine ⟨_, rfl, ?_⟩
    simp only [atomik_secure_send, hin, hout]
    rw [if_pos (by omega)]
    rcases hfl with h | h
    · subst h
      simp only [id]
      have a1 : (0 : ℚ) < ((g.total_out + compressed_len id len : ℕ) : ℚ) := by
        exact_mod_cast (by omega : 0 < g.total_out + compressed_len id len)
      have a2 : ((g.total_out + compressed_len id len : ℕ) : ℚ)
          < ((g.total_in + len : ℕ) : ℚ) := by
        exact_mod_cast (by omega : g.total_out + compressed_len id len < g.total_in + len)
      have a3 : (0 : ℚ) < ((g.total_in + len : ℕ) : ℚ) := lt_trans a1 a2
      have r1 : 0 < ((g.total_out + compressed_len id len : ℕ) : ℚ)
          / ((g.total_in + len : ℕ) : ℚ) := div_pos a1 a3
      have r2 : ((g.total_out + compressed_len id len : ℕ) : ℚ)
          / ((g.total_in + len : ℕ) : ℚ) < 1 := (div_lt_one a3).2 a2
      constructor <;> linarith
    · subst h
      exact grid_save_binary64_bounds _ _ (by omega) (by omega) h3

/-- Witness of C6 at a send of 15 bytes on the freshly opened device. -/
theorem C6_grid_save_percent_witness :
    ∃ r, (atomik_get_metrics binary64 .g_device (some ⟨0, 0, 0, 0, 0⟩)
            (atomik_secure_send binary64 .g_device
              [72, 69, 76, 76, 79, 72, 69, 76, 76, 79, 72, 69, 76, 76, 79] 15
              (atomik_open 0 zeroed).2 (fun _ => 0)).2.1 (fun _ => 0)).2.1 = some r ∧
      0 < r.grid_save_percent ∧ r.grid_save_percent < 100 :=
  (C6_grid_save_percent binary64 zeroed (atomik_open 0 zeroed).2
    [72, 69, 76, 76, 79, 72, 69, 76, 76, 79, 72, 69, 76, 76, 79] 15 (fun _ => 0)
    (fun _ => 0) (fun _ => 0) ⟨0, 0, 0, 0, 0⟩ (Or.inr rfl) rfl (by decide) (by decide)
    (by decide)).2


/-- C8: with the arithmetic read exactly over the rationals, `get_metrics` on a device
handle returns `ATOMIK_SUCCESS` with `events_processed = total_in`,
`events_emitted = total_out`, `grid_save_percent = (1 - total_out / total_in) * 100` when
`total_in > 0` and 0 otherwise, and
`current_watts = 0.05 + (100 - grid_save_percent) * 0.001`. -/
theorem C8_metrics_formulas (g : atomik_device_internal_t) (m : atomik_metrics_t)
    (rng : Rng) :
    ∃ r : atomik_metrics_t, ∃ rng' : Rng,
      atomik_get_metrics id .g_device (some m) g rng = (.ATOMIK_SUCCESS, some r, rng') ∧
      r.events_processed = g.total_in ∧
      r.events_emitted = g.total_out ∧
      r.grid_save_percent
        = (if 0 < g.total_in then (1 - (g.total_out : ℚ) / (g.total_in : ℚ)) * 100 else 0) ∧
      r.current_watts = 5 / 100 + (100 - r.grid_save_percent) * (1 / 1000) :=
  ⟨_, _, rfl, rfl, rfl, rfl, rfl⟩

/-- C9: `open(0)`, then loading the source "ATOM", 0x01, 0x64 0 0 0 and a payload (of 20
bytes, or of any other length) succeeds with frequency 100 and seed `0xCAFEBABE`; sending
the 15 bytes "HELLOHELLOHELLO" then raises `total_in` by 15 and `total_out` by 1;
`get_metrics` then reports `(1 - 1/15) * 100` exactly over the rationals, and in `double`
arithmetic the binary64 number 6567749456581973 / 2 ^ 46, within `10 ^ (-13)` of it. -/
theorem C9_end_to_end (payload : List Byte) (u : Uninit) (rng r2 : Rng)
    (m : atomik_metrics_t) (fl : ℚ → ℚ) (hfl : fl = id ∨ fl = binary64) :
    (atomik_open 0 zeroed).1 = .g_device ∧
    (atomik_load_genome .g_device (some ([65, 84, 79, 77, 1, 100, 0, 0, 0] ++ payload)) u
        (atomik_open 0 zeroed).2).1 = .ATOMIK_SUCCESS ∧
    (atomik_load_genome .g_device (some ([65, 84, 79, 77, 1, 100, 0, 0, 0] ++ payload)) u
        (atomik_open 0 zeroed).2).2.current_genome.polymorph_freq_ms = 100 ∧
    (atomik_load_genome .g_device (some ([65, 84, 79, 77, 1, 100, 0, 0, 0] ++ payload)) u
        (atomik_open 0 zeroed).2).2.polymorph_seed = 0xCAFEBABE ∧
    (atomik_secure_send fl .g_device
        [72, 69, 76, 76, 79, 72, 69, 76, 76, 79, 72, 69, 76, 76, 79] 15
        (atomik_load_genome .g_device
          (some ([65, 84, 79, 77, 1, 100, 0, 0, 0] ++ payload)) u
          (atomik_open 0 zeroed).2).2 rng).1 = .ATOMIK_SUCCESS ∧
    (atomik_secure_send fl .g_device
        [72, 69, 76, 76, 79, 72, 69, 76, 76, 79, 72, 69, 76, 76, 79] 15
        (atomik_load_genome .g_device
          (some ([65, 84, 79, 77, 1, 100, 0, 0, 0] ++ payload)) u
          (atomik_open 0 zeroed).2).2 rng).2.1.total_in
      = (atomik_load_genome .g_device
          (some ([65, 84, 79, 77, 1, 100, 0, 0, 0] ++ payload)) u
          (atomik_open 0 zeroed).2).2.total_in + 15 ∧
    (atomik_secure_send fl .g_device
        [72, 69, 76, 76, 79, 72, 69, 76, 76, 79, 72, 69, 76, 76, 79] 15
        (atomik_load_genome .g_device
          (some ([65, 84, 79, 77, 1, 100, 0, 0, 0] ++ payload)) u
          (atomik_open 0 zeroed).2).2 rng).2.1.total_out
      = (atomik_load_genome .g_device
          (some ([65, 84, 79, 77, 1, 100, 0, 0, 0] ++ payload)) u
          (atomik_open 0 zeroed).2).2.total_out + 1 ∧
    ∃ r, (atomik_get_metrics fl .g_device (some m)
            (atomik_secure_send fl .g_device
              [72, 69, 76, 76, 79, 72, 69, 76, 76, 79, 72, 69, 76, 76, 79] 15
              (atomik_load_genome .g_device
                (some ([65, 84, 79, 77, 1, 100, 0, 0, 0] ++ payload)) u
                (atomik_open 0 zeroed).2).2 rng).2.1 r2)
          = (.ATOMIK_SUCCESS, some r, (rand r2).2) ∧
      (fl = id → r.grid_save_percent = (1 - 1 / 15) * 100) ∧
      (fl = binary64 → r.grid_save_percent = 6567749456581973 / 2 ^ 46) ∧
      |r.grid_save_percent - (1 - 1 / 15) * 100| < 1 / 10 ^ 13 := by
  have hl := load_genome_valid 1 100 0 0 0 payload u (atomik_open 0 zeroed).2
  have hsrc : ([65, 84, 79, 77] ++ [1] ++ [100, 0, 0, 0] ++ payload : List Byte)
      = [65, 84, 79, 77, 1, 100, 0, 0, 0] ++ payload := rfl
  rw [hsrc] at hl
  rw [hl]
  have hc : compressed_len fl 15 = 1 := by
    rcases hfl with h | h <;> subst h <;> decide!
  refine ⟨by decide, rfl, by decide, by decide, rfl, ?_, ?_, ?_⟩
  · show (0 + 15) % 2 ^ 64 = 0 + 15
    rfl
  · show (0 + compressed_len fl 15) % 2 ^ 64 = 0 + 1
    rw [hc]
    rfl
  · refine ⟨_, rfl, ?_⟩
    simp only [atomik_secure_send, hc]
    rcases hfl with h | h
    · subst h
      refine ⟨fun _ => by decide!, fun h => ?_, by decide!⟩
      exact absurd (congrFun h (8 / 100)) (by decide!)
    · subst h
      refine ⟨fun h => ?_, fun _ => by decide!, by decide!⟩
      exact absurd (congrFun h (8 / 100)) (by decide!)


/-- Witness of C9 in `double` arithmetic, with the 20 payload bytes 1, ..., 20. -/
theorem C9_end_to_end_witness :
    ∃ r, (atomik_get_metrics binary64 .g_device (some ⟨0, 0, 0, 0, 0⟩)
            (atomik_secure_send binary64 .g_device
              [72, 69, 76, 76, 79, 72, 69, 76, 76, 79, 72, 69, 76, 76, 79] 15
              (atomik_load_genome .g_device
                (some ([65, 84, 79, 77, 1, 100, 0, 0, 0]
                  ++ [1, 2, 3, 4, 5, 6, 7, 8, 9, 10, 11, 12, 13, 14, 15, 16, 17, 18, 19, 20]))
                ⟨0, 0⟩ (atomik_open 0 zeroed).2).2 (fun _ => 0)).2.1 (fun _ => 0))
          = (.ATOMIK_SUCCESS, some r, (rand (fun _ => 0)).2) ∧
      (binary64 = id → r.grid_save_percent = (1 - 1 / 15) * 100) ∧
      (binary64 = binary64 → r.grid_save_percent = 6567749456581973 / 2 ^ 46) ∧
      |r.grid_save_percent - (1 - 1 / 15) * 100| < 1 / 10 ^ 13 :=
  (C9_end_to_end [1, 2, 3, 4, 5, 6, 7, 8, 9, 10, 11, 12, 13, 14, 15, 16, 17, 18, 19, 20]
    ⟨0, 0⟩ (fun _ => 0) (fun _ => 0) ⟨0, 0, 0, 0, 0⟩ binary64 (Or.inr rfl)).2.2.2.2.2.2.2

/-! ## Lifecycle, part two -/

/-- C11: `close` on the device handle followed by `open(0)` gives an active device in the
default state, whatever the record held before: id 0, threshold 90, both counters 0, an
all-zero genome with frequency 0, and seed 0. -/
theorem C11_close_open_resets (g : atomik_device_internal_t) :
    (atomik_open 0 (atomik_close .g_device g)).1 = .g_device ∧
    (atomik_open 0 (atomik_close .g_device g)).2.is_active = 1 ∧
    (atomik_open 0 (atomik_close .g_device g)).2.device_id = 0 ∧
    (atomik_open 0 (atomik_close .g_device g)).2.sparsity_threshold = 90 ∧
    (atomik_open 0 (atomik_close .g_device g)).2.total_in = 0 ∧
    (atomik_open 0 (atomik_close .g_device g)).2.total_out = 0 ∧
    (atomik_open 0 (atomik_close .g_device g)).2.polymorph_seed = 0 ∧
    (atomik_open 0 (atomik_close .g_device g)).2.current_genome.polymorph_freq_ms = 0 ∧
    (atomik_open 0 (atomik_close .g_device g)).2.current_genome.genome_id
      = List.replicate 16 0 ∧
    (atomik_open 0 (atomik_close .g_device g)).2.current_genome.register_map
      = List.replicate 256 0 ∧
    (atomik_open 0 (atomik_close .g_device g)).2.current_genome.compression_dict
      = List.replicate 8 0 := by
  have h : atomik_open 0 (atomik_close .g_device g)
      = (.g_device,
          { zeroed with device_id := 0, is_active := 1, sparsity_threshold := 90 }) := by
    simp [atomik_open, atomik_close]
  rw [h]
  exact ⟨rfl, rfl, rfl, rfl, rfl, rfl, rfl, rfl, rfl, rfl, rfl⟩

/-- C12: `open` with a device id other than 0 returns no handle and leaves the device
record as it was, active or not. -/
theorem C12_open_other_id_fails (device_id : Int) (g : atomik_device_internal_t)
    (h : device_id ≠ 0) : atomik_open device_id g = (.NULL, g) := by
  simp [atomik_open, h]

/-- Witness of C12 at device id 1 on an active device. -/
theorem C12_open_other_id_fails_witness :
    atomik_open 1 (atomik_open 0 zeroed).2 = (.NULL, (atomik_open 0 zeroed).2) :=
  C12_open_other_id_fails 1 (atomik_open 0 zeroed).2 (by decide)

/-- C15: `verify_genome` returns `ATOMIK_SUCCESS` for every handle (the null one
included) and every expected genome, and leaves the device record as it was. -/
theorem C15_verify_genome_noop (dev : atomik_handle_t) (expected : Option atomik_genome_t)
    (g : atomik_device_internal_t) :
    atomik_verify_genome dev expected g = (.ATOMIK_SUCCESS, g) := rfl

/-- C13: no operation returns `ATOMIK_ERR_POLYMORPH_FAIL` or `ATOMIK_ERR_TIMEOUT`: every
result is `ATOMIK_SUCCESS`, `ATOMIK_ERR_NO_DEVICE` or `ATOMIK_ERR_INVALID_GENOME`, and
`open` returns the device handle or none. -/
theorem C13_reserved_kinds_unused (fl : ℚ → ℚ) (srand : Nat → Rng) (time : Nat)
    (device_id : Int) (dev : atomik_handle_t) (file : Option (List Byte)) (u : Uninit)
    (expected : Option atomik_genome_t) (seed frequency_ms len : Nat) (data : List Byte)
    (threshold_percent : ℚ) (out_metrics : Option atomik_metrics_t)
    (g : atomik_device_internal_t) (rng : Rng) :
    (atomik_init srand time).1 = .ATOMIK_SUCCESS ∧
    ((atomik_open device_id g).1 = .g_device ∨ (atomik_open device_id g).1 = .NULL) ∧
    ((atomik_load_genome dev file u g).1 = .ATOMIK_SUCCESS ∨
      (atomik_load_genome dev file u g).1 = .ATOMIK_ERR_NO_DEVICE ∨
      (atomik_load_genome dev file u g).1 = .ATOMIK_ERR_INVALID_GENOME) ∧
    (atomik_verify_genome dev expected g).1 = .ATOMIK_SUCCESS ∧
    ((atomik_set_polymorphism dev seed frequency_ms g).1 = .ATOMIK_SUCCESS ∨
      (atomik_set_polymorphism dev seed frequency_ms g).1 = .ATOMIK_ERR_NO_DEVICE) ∧
    ((atomik_secure_send fl dev data len g rng).1 = .ATOMIK_SUCCESS ∨
      (atomik_secure_send fl dev data len g rng).1 = .ATOMIK_ERR_NO_DEVICE) ∧
    ((atomik_set_sparsity dev threshold_percent g).1 = .ATOMIK_SUCCESS ∨
      (atomik_set_sparsity dev threshold_percent g).1 = .ATOMIK_ERR_NO_DEVICE) ∧
    ((atomik_get_metrics fl dev out_metrics g rng).1 = .ATOMIK_SUCCESS ∨
      (atomik_get_metrics fl dev out_metrics g rng).1 = .ATOMIK_ERR_NO_DEVICE) := by
  refine ⟨rfl, ?_, ?_, rfl, ?_, ?_, ?_, ?_⟩
  · unfold atomik_open
    split_ifs <;> simp
  · cases dev
    · exact Or.inr (Or.inl rfl)
    · cases file with
      | none => exact Or.inr (Or.inr rfl)
      | some src =>
        simp only [atomik_load_genome, fopen, Option.map_some']
        split_ifs <;> simp
  · cases dev
    · exact Or.inr rfl
    · exact Or.inl rfl
  · cases dev
    · exact Or.inr rfl
    · exact Or.inl rfl
  · cases dev
    · exact Or.inr rfl
    · exact Or.inl rfl
  · cases dev
    · exact Or.inr rfl
    · cases out_metrics
      · exact Or.inr rfl
      · exact Or.inl rfl

/-- C14: the entropy score is `r % 100 + 100` for the value `r` drawn from the random
source, hence at least 100 and below 200, and it is the same for every device record,
metrics record and rounding. -/
theorem C14_entropy_score (fl fl' : ℚ → ℚ) (g g' : atomik_device_internal_t)
    (m m' : atomik_metrics_t) (rng : Rng) :
    ∃ r r' : atomik_metrics_t,
      (atomik_get_metrics fl .g_device (some m) g rng).2.1 = some r ∧
      (atomik_get_metrics fl' .g_device (some m') g' rng).2.1 = some r' ∧
      r.entropy_score = rng 0 % 100 + 100 ∧
      100 ≤ r.entropy_score ∧ r.entropy_score < 200 ∧
      r'.entropy_score = r.entropy_score := by
  have hmod : (rng 0 % 100 + 100) % 2 ^ 32 = rng 0 % 100 + 100 :=
    Nat.mod_eq_of_lt (by omega)
  refine ⟨_, _, rfl, rfl, ?_, ?_, ?_, rfl⟩
  · exact hmod
  · show 100 ≤ (rng 0 % 100 + 100) % 2 ^ 32
    rw [hmod]
    omega
  · show (rng 0 % 100 + 100) % 2 ^ 32 < 200
    rw [hmod]
    omega

/-! ## Frame properties -/

/-- C20: a valid source whose frequency field is 0 loads with `ATOMIK_SUCCESS`, stores
frequency 0 and the id derived from the version, and leaves the seed, the sparsity
threshold, both counters and the rest of the record as they were. -/
theorem C20_load_zero_frequency (v : Byte) (payload : List Byte) (u : Uninit)
    (g : atomik_device_internal_t) :
    atomik_load_genome .g_device
        (some ([65, 84, 79, 77] ++ [v] ++ [0, 0, 0, 0] ++ payload)) u g
      = (.ATOMIK_SUCCESS,
          { g with
            current_genome :=
              { g.current_genome with
                polymorph_freq_ms := 0
                genome_id :=
                  snprintf g.current_genome.genome_id 16 (G_VER ++ decimal v.val) } }) ∧
    (atomik_load_genome .g_device
        (some ([65, 84, 79, 77] ++ [v] ++ [0, 0, 0, 0] ++ payload)) u
        g).2.current_genome.polymorph_freq_ms = 0 ∧
    (atomik_load_genome .g_device
        (some ([65, 84, 79, 77] ++ [v] ++ [0, 0, 0, 0] ++ payload)) u g).2.polymorph_seed
      = g.polymorph_seed ∧
    (atomik_load_genome .g_device
        (some ([65, 84, 79, 77] ++ [v] ++ [0, 0, 0, 0] ++ payload)) u
        g).2.sparsity_threshold = g.sparsity_threshold ∧
    (atomik_load_genome .g_device
        (some ([65, 84, 79, 77] ++ [v] ++ [0, 0, 0, 0] ++ payload)) u g).2.total_in
      = g.total_in ∧
    (atomik_load_genome .g_device
        (some ([65, 84, 79, 77] ++ [v] ++ [0, 0, 0, 0] ++ payload)) u g).2.total_out
      = g.total_out := by
  have h := load_genome_valid v 0 0 0 0 payload u g
  simp only [Fin.val_zero, Nat.mul_zero, Nat.add_zero, Nat.lt_irrefl, if_false] at h
  rw [h]
  exact ⟨rfl, rfl, rfl, rfl, rfl, rfl⟩

/-! ## Secure channel preview -/

/-- The preview loop returns the first `n` draws, each reduced `% 0xFF`, and leaves the
stream advanced by `n`. -/
theorem noise_eq : ∀ (n : Nat) (rng : Rng),
    (noise n rng).1 = (List.range n).map (fun i => rng i % 0xFF) ∧
    (noise n rng).2 = fun i => rng (i + n) := by
  intro n
  induction n with
  | zero =>
    intro rng
    exact ⟨rfl, rfl⟩
  | succ k ih =>
    intro rng
    obtain ⟨h1, h2⟩ := ih (rand rng).2
    constructor
    · show rng 0 % 0xFF :: (noise k (rand rng).2).1 = _
      rw [h1, List.range_succ_eq_map, List.map_cons, List.map_map]
      rfl
    · show (noise k (rand rng).2).2 = _
      rw [h2]
      funext i
      show rng (i + k + 1) = rng (i + (k + 1))
      rfl

/-- Every number below 256 prints as exactly two characters under `%02X`. -/
theorem fmt_02X_length : ∀ t : Fin 256, (fmt_02X t.val).length = 2 := by decide!

/-- C17: `secure_send` does not depend on the buffer: for any two buffers and the same
length, device and random stream it returns the same result, device, stream and preview;
with a device handle the preview is the first `min len 10` draws of the random source,
each reduced `% 0xFF` and printed as two hexadecimal digits. -/
theorem C17_send_ignores_content (fl : ℚ → ℚ) (dev : atomik_handle_t)
    (data data' : List Byte) (len : Nat) (g : atomik_device_internal_t) (rng : Rng) :
    atomik_secure_send fl dev data len g rng = atomik_secure_send fl dev data' len g rng ∧
    (atomik_secure_send fl .g_device data len g rng).2.2.2
      = (List.range (min len 10)).map (fun i => rng i % 0xFF) ∧
    (atomik_secure_send fl .g_device data len g rng).2.2.2.length = min len 10 ∧
    ∀ t ∈ (atomik_secure_send fl .g_device data len g rng).2.2.2,
      t < 255 ∧ (fmt_02X t).length = 2 := by
  have hn : (if len > 10 then 10 else len) = min len 10 := by
    split_ifs <;> omega
  have hp : (atomik_secure_send fl .g_device data len g rng).2.2.2
      = (List.range (min len 10)).map (fun i => rng i % 0xFF) := by
    show (noise (if len > 10 then 10 else len) rng).1 = _
    rw [hn]
    exact (noise_eq _ rng).1
  refine ⟨rfl, hp, ?_, ?_⟩
  · rw [hp, List.length_map, List.length_range]
  · intro t ht
    rw [hp, List.mem_map] at ht
    obtain ⟨i, _, hi⟩ := ht
    have hlt : t < 255 := by
      rw [← hi]
      exact Nat.mod_lt _ (by norm_num)
    exact ⟨hlt, fmt_02X_length ⟨t, by omega⟩⟩

/-- Witness of C17: two three-byte buffers on the zeroed device with the draws 300, 301,
302; the first token is 45 and prints as two characters. -/
theorem C17_send_ignores_content_witness :
    atomik_secure_send binary64 .g_device [1, 2, 3] 3 zeroed (fun i => 300 + i)
      = atomik_secure_send binary64 .g_device [4, 5, 6] 3 zeroed (fun i => 300 + i) ∧
    (45 < 255 ∧ (fmt_02X 45).length = 2) :=
  ⟨(C17_send_ignores_content binary64 .g_device [1, 2, 3] [4, 5, 6] 3 zeroed
      (fun i => 300 + i)).1,
    (C17_send_ignores_content binary64 .g_device [1, 2, 3] [4, 5, 6] 3 zeroed
      (fun i => 300 + i)).2.2.2 45 (by decide)⟩

/-! ## The derived genome id -/

/-- The decimal text of a byte has at most three characters, none of them NUL, and reads
back as the byte. -/
theorem decimal_byte : ∀ v : Fin 256,
    (decimal v.val).length ≤ 3 ∧ (0 : Byte) ∉ decimal v.val ∧
      atoi (decimal v.val) = v.val := by decide!

/-- The C string of a buffer that holds a text without NUL and then a NUL is the text. -/
theorem cstr_append_nul (tail : List Byte) :
    ∀ text : List Byte, (0 : Byte) ∉ text → cstr (text ++ 0 :: tail) = text := by
  intro text
  induction text with
  | nil =>
    intro _
    simp [cstr]
  | cons a rest ih =>
    intro h
    have ha : a ≠ 0 := fun h0 => h (h0 ▸ List.mem_cons_self _ _)
    have hr := ih fun hc => h (List.mem_cons_of_mem _ hc)
    simp only [cstr, List.cons_append] at hr ⊢
    rw [List.takeWhile_cons]
    simp only [ha, ne_eq, not_false_eq_true, decide_True, if_true, List.cons.injEq,
      true_and]
    exact hr

/-- A text without NUL that is stored with a terminating NUL is the C string of the
buffer. -/
theorem cstr_store (old text : List Byte) (h : (0 : Byte) ∉ text) :
    cstr (store old (text ++ [0])) = text := by
  have := cstr_append_nul (old.drop (text ++ [0]).length) text h
  simpa [store] using this

/-- The id a successful load derives from version `v`. -/
theorem load_genome_id (v b0 b1 b2 b3 : Byte) (payload : List Byte) (u : Uninit)
    (g : atomik_device_internal_t) :
    (atomik_load_genome .g_device
        (some ([65, 84, 79, 77] ++ [v] ++ [b0, b1, b2, b3] ++ payload)) u
        g).2.current_genome.genome_id
      = store g.current_genome.genome_id (G_VER ++ decimal v.val ++ [0]) := by
  rw [load_genome_valid]
  show snprintf g.current_genome.genome_id 16 (G_VER ++ decimal v.val) = _
  have hl : (G_VER ++ decimal v.val).length ≤ 15 := by
    have := (decimal_byte v).1
    simp only [List.length_append, G_VER, List.length_cons, List.length_nil]
    omega
  simp only [snprintf]
  rw [if_neg (by norm_num), List.take_of_length_le hl]

/-- C18: a successful load of version `v` stores the text "G_VER_" followed by the decimal
digits of `v` and a NUL at the start of the 16-byte id, untruncated (at most 10 bytes);
the C string of the id is that text, `v` is read back from it, and ids derived from
different versions differ. -/
theorem C18_version_echo (v w b0 b1 b2 b3 c0 c1 c2 c3 : Byte) (payload payload' : List Byte)
    (u u' : Uninit) (g g' : atomik_device_internal_t) :
    (atomik_load_genome .g_device
        (some ([65, 84, 79, 77] ++ [v] ++ [b0, b1, b2, b3] ++ payload)) u
        g).2.current_genome.genome_id
      = store g.current_genome.genome_id (G_VER ++ decimal v.val ++ [0]) ∧
    (G_VER ++ decimal v.val ++ [0]).length ≤ 10 ∧
    cstr (atomik_load_genome .g_device
        (some ([65, 84, 79, 77] ++ [v] ++ [b0, b1, b2, b3] ++ payload)) u
        g).2.current_genome.genome_id = G_VER ++ decimal v.val ∧
    version_of_id (atomik_load_genome .g_device
        (some ([65, 84, 79, 77] ++ [v] ++ [b0, b1, b2, b3] ++ payload)) u
        g).2.current_genome.genome_id = v.val ∧
    ((atomik_load_genome .g_device
        (some ([65, 84, 79, 77] ++ [v] ++ [b0, b1, b2, b3] ++ payload)) u
        g).2.current_genome.genome_id
      = (atomik_load_genome .g_device
        (some ([65, 84, 79, 77] ++ [w] ++ [c0, c1, c2, c3] ++ payload')) u'
        g').2.current_genome.genome_id → v = w) := by
  have key : ∀ (x : Byte) (old : List Byte),
      cstr (store old (G_VER ++ decimal x.val ++ [0])) = G_VER ++ decimal x.val ∧
      version_of_id (store old (G_VER ++ decimal x.val ++ [0])) = x.val := by
    intro x old
    have hc : cstr (store old (G_VER ++ decimal x.val ++ [0])) = G_VER ++ decimal x.val := by
      apply cstr_store
      intro hc
      rcases List.mem_append.1 hc with h | h
      · exact absurd h (by decide)
      · exact (decimal_byte x).2.1 h
    refine ⟨hc, ?_⟩
    unfold version_of_id
    rw [hc]
    exact (decimal_byte x).2.2
  rw [load_genome_id, load_genome_id]
  refine ⟨rfl, ?_, (key v _).1, (key v _).2, ?_⟩
  · have := (decimal_byte v).1
    simp only [List.length_append, G_VER, List.length_cons, List.length_nil]
    omega
  · intro h
    have h1 := (key v g.current_genome.genome_id).2
    have h2 := (key w g'.current_genome.genome_id).2
    rw [h] at h1
    exact Fin.ext (h1.symm.trans h2)

/-- Witness of C18: on the zeroed device version 200 gives the C string "G_VER_200",
read back as 200, and an id that differs from the one version 7 gives. -/
theorem C18_version_echo_witness :
    cstr (atomik_load_genome .g_device (some [65, 84, 79, 77, 200, 100, 0, 0, 0]) ⟨0, 0⟩
        zeroed).2.current_genome.genome_id = [71, 95, 86, 69, 82, 95, 50, 48, 48] ∧
    version_of_id (atomik_load_genome .g_device
        (some [65, 84, 79, 77, 200, 100, 0, 0, 0]) ⟨0, 0⟩
        zeroed).2.current_genome.genome_id = 200 ∧
    (atomik_load_genome .g_device (some [65, 84, 79, 77, 200, 100, 0, 0, 0]) ⟨0, 0⟩
        zeroed).2.current_genome.genome_id
      ≠ (atomik_load_genome .g_device (some [65, 84, 79, 77, 7, 0, 0, 0, 0]) ⟨0, 0⟩
        zeroed).2.current_genome.genome_id :=
  ⟨(C18_version_echo 200 7 100 0 0 0 0 0 0 0 [] [] ⟨0, 0⟩ ⟨0, 0⟩ zeroed zeroed).2.2.1,
    (C18_version_echo 200 7 100 0 0 0 0 0 0 0 [] [] ⟨0, 0⟩ ⟨0, 0⟩ zeroed zeroed).2.2.2.1,
    fun h =>
      absurd
        ((C18_version_echo 200 7 100 0 0 0 0 0 0 0 [] [] ⟨0, 0⟩ ⟨0, 0⟩ zeroed
          zeroed).2.2.2.2 h)
        (by decide)⟩

/-! ## Counter invariant and the derived metrics -/

/-- The compressed length does not exceed the length, for lengths from 1 up to `2 ^ 53`. -/
theorem compressed_len_le (fl : ℚ → ℚ) (hfl : fl = id ∨ fl = binary64) (len : ℕ)
    (h1 : 1 ≤ len) (h53 : len < 2 ^ 53) : compressed_len fl len ≤ len := by
  rcases Nat.lt_or_ge len 2 with h | h
  · have : len = 1 := by omega
    subst this
    rcases hfl with h | h <;> subst h <;> decide!
  · exact (compressed_len_lt fl hfl len h h53).le

/-- Over nonzero lengths that sum to less than `2 ^ 53` the compressed lengths sum to no
more than the lengths, and to at least 1 unless there is no call. -/
theorem sum_compressed_le (fl : ℚ → ℚ) (hfl : fl = id ∨ fl = binary64) :
    ∀ calls : List (List Byte × Nat), (∀ c ∈ calls, 1 ≤ c.2) →
      (calls.map fun c => c.2).sum < 2 ^ 53 →
      (calls.map fun c => compressed_len fl c.2).sum ≤ (calls.map fun c => c.2).sum ∧
      (0 < (calls.map fun c => c.2).sum →
        0 < (calls.map fun c => compressed_len fl c.2).sum) := by
  intro calls
  induction calls with
  | nil =>
    intro _ _
    simp
  | cons c rest ih =>
    intro hnz hsum
    simp only [List.map_cons, List.sum_cons] at hsum ⊢
    have h1 := hnz c (List.mem_cons_self _ _)
    obtain ⟨r1, _⟩ := ih (fun d hd => hnz d (List.mem_cons_of_mem _ hd)) (by omega)
    have hc := compressed_len_le fl hfl c.2 h1 (by omega)
    have hp := compressed_len_pos fl c.2
    constructor
    · omega
    · intro _
      omega

/-- In `double` arithmetic the wattage for a `grid_save_percent` in `[0, 100)` lies above
0.05 and does not exceed 1351079888211149 / 2 ^ 53, the sum `0.05 + 0.1` as a `double`. -/
theorem watts_binary64_bounds (x : ℚ) (h0 : 0 ≤ x) (h100 : x < 100) :
    5 / 100 < binary64 (binary64 (5 / 100)
        + binary64 (binary64 (binary64 100 - x) * binary64 (1 / 1000))) ∧
    binary64 (binary64 (5 / 100)
        + binary64 (binary64 (binary64 100 - x) * binary64 (1 / 1000)))
      ≤ 1351079888211149 / 2 ^ 53 := by
  have c100 : binary64 100 = 100 := by decide!
  have ck : binary64 (1 / 1000) = 1152921504606847 / 2 ^ 60 := by decide!
  have c5 : binary64 (5 / 100) = 3602879701896397 / 2 ^ 56 := by decide!
  have c55 : binary64 (3602879701896397 / 2 ^ 56) = 3602879701896397 / 2 ^ 56 := by decide!
  have ctop : binary64 (3602879701896397 / 2 ^ 56
      + binary64 (100 * (1152921504606847 / 2 ^ 60))) = 1351079888211149 / 2 ^ 53 := by
    decide!
  rw [c100, ck, c5]
  have t1pos : 0 < binary64 (100 - x) := binary64_pos _ (by linarith)
  have t1le : binary64 (100 - x) ≤ 100 := by
    have := binary64_mono (by linarith : (0 : ℚ) ≤ 100 - x) (by linarith : 100 - x ≤ 100)
    rwa [c100] at this
  have t2pos : 0 < binary64 (binary64 (100 - x) * (1152921504606847 / 2 ^ 60)) :=
    binary64_pos _ (by positivity)
  have t2le : binary64 (binary64 (100 - x) * (1152921504606847 / 2 ^ 60))
      ≤ binary64 (100 * (1152921504606847 / 2 ^ 60)) :=
    binary64_mono (by positivity) (by nlinarith)
  have lo := binary64_mono (by norm_num : (0 : ℚ) ≤ 3602879701896397 / 2 ^ 56)
    (by linarith : (3602879701896397 / 2 ^ 56 : ℚ)
      ≤ 3602879701896397 / 2 ^ 56
        + binary64 (binary64 (100 - x) * (1152921504606847 / 2 ^ 60)))
  rw [c55] at lo
  have hi := binary64_mono
    (by positivity : (0 : ℚ) ≤ 3602879701896397 / 2 ^ 56
        + binary64 (binary64 (100 - x) * (1152921504606847 / 2 ^ 60)))
    (by linarith : (3602879701896397 / 2 ^ 56 : ℚ)
        + binary64 (binary64 (100 - x) * (1152921504606847 / 2 ^ 60))
      ≤ 3602879701896397 / 2 ^ 56 + binary64 (100 * (1152921504606847 / 2 ^ 60)))
  rw [ctop] at hi
  constructor
  · have : (5 / 100 : ℚ) < 3602879701896397 / 2 ^ 56 := by norm_num
    linarith
  · exact hi

/-- Range of the reported efficiency and wattage when `total_out ≤ total_in < 2 ^ 53` and
`total_out` is nonzero whenever `total_in` is. -/
theorem metrics_bounds (fl : ℚ → ℚ) (hfl : fl = id ∨ fl = binary64)
    (g : atomik_device_internal_t) (m : atomik_metrics_t) (rng : Rng)
    (h1 : g.total_out ≤ g.total_in) (h2 : g.total_in < 2 ^ 53)
    (h3 : 0 < g.total_in → 0 < g.total_out) :
    ∃ r, (atomik_get_metrics fl .g_device (some m) g rng).2.1 = some r ∧
      0 ≤ r.grid_save_percent ∧ r.grid_save_percent < 100 ∧
      5 / 100 < r.current_watts ∧ r.current_watts ≤ 1351079888211149 / 2 ^ 53 ∧
      (fl = id → r.current_watts ≤ 15 / 100) := by
  refine ⟨_, rfl, ?_⟩
  simp only []
  have hg : (0 : ℚ) ≤ (if g.total_in > 0 then
        fl (fl (fl 1 - fl (fl (g.total_out : ℚ) / fl (g.total_in : ℚ))) * fl 100)
      else fl 0) ∧
      (if g.total_in > 0 then
        fl (fl (fl 1 - fl (fl (g.total_out : ℚ) / fl (g.total_in : ℚ))) * fl 100)
      else fl 0) < 100 := by
    by_cases hin : g.total_in > 0
    · rw [if_pos hin]
      have hout := h3 hin
      rcases hfl with h | h
      · subst h
        simp only [id]
        have a1 : (0 : ℚ) < (g.total_out : ℚ) := by exact_mod_cast hout
        have a2 : (g.total_out : ℚ) ≤ (g.total_in : ℚ) := by exact_mod_cast h1
        have a3 : (0 : ℚ) < (g.total_in : ℚ) := by exact_mod_cast hin
        have r1 : 0 < (g.total_out : ℚ) / (g.total_in : ℚ) := div_pos a1 a3
        have r2 : (g.total_out : ℚ) / (g.total_in : ℚ) ≤ 1 := (div_le_one a3).2 a2
        constructor <;> linarith
      · subst h
        rcases h1.lt_or_eq with hlt | heq
        · have := grid_save_binary64_bounds _ _ hout hlt h2
          exact ⟨this.1.le, this.2⟩
        · rw [heq, binary64_natCast _ h2]
          have a3 : (g.total_in : ℚ) ≠ 0 := by exact_mod_cast hin.ne'
          rw [div_self a3]
          have c1 : binary64 1 = 1 := by decide!
          have c0 : binary64 0 = 0 := by decide!
          rw [c1, sub_self, c0, zero_mul, c0]
          norm_num
    · rw [if_neg hin]
      rcases hfl with h | h <;> subst h <;> simp [binary64]
  obtain ⟨g0, g100⟩ := hg
  refine ⟨g0, g100, ?_⟩
  rcases hfl with h | h
  · subst h
    simp only [id] at g0 g100 ⊢
    refine ⟨by linarith, ?_, fun _ => by linarith⟩
    have : (15 / 100 : ℚ) ≤ 1351079888211149 / 2 ^ 53 := by norm_num
    linarith
  · subst h
    have := watts_binary64_bounds _ g0 g100
    refine ⟨this.1, this.2, fun h => ?_⟩
    exact absurd (congrFun h (8 / 100)) (by decide!)

/-- C19, counterexample: in `double` arithmetic the wattage after `open(0)`, and after a
further one-byte send, is 1351079888211149 / 2 ^ 53 = 0.15000000000000002, above 0.15;
and the nonzero sends of `2 ^ 64 - 1` bytes and 2 bytes wrap `total_in` to 1 below
`total_out`, with a negative `grid_save_percent`. -/
theorem C19_invariant_counterexample :
    ((atomik_get_metrics binary64 .g_device (some ⟨0, 0, 0, 0, 0⟩) (atomik_open 0 zeroed).2
        (fun _ => 0)).2.1.map fun m => m.current_watts)
      = some (1351079888211149 / 2 ^ 53) ∧
    ((atomik_get_metrics binary64 .g_device (some ⟨0, 0, 0, 0, 0⟩)
        (send_all binary64 .g_device [([72], 1)] (atomik_open 0 zeroed).2 (fun _ => 0)).1
        (fun _ => 0)).2.1.map fun m => m.current_watts)
      = some (1351079888211149 / 2 ^ 53) ∧
    (15 / 100 : ℚ) < 1351079888211149 / 2 ^ 53 ∧
    (send_all binary64 .g_device [([], 2 ^ 64 - 1), ([], 2)] (atomik_open 0 zeroed).2
        (fun _ => 0)).1.total_in = 1 ∧
    (send_all binary64 .g_device [([], 2 ^ 64 - 1), ([], 2)] (atomik_open 0 zeroed).2
        (fun _ => 0)).1.total_out = 1475739525896764161 ∧
    ((atomik_get_metrics binary64 .g_device (some ⟨0, 0, 0, 0, 0⟩)
        (send_all binary64 .g_device [([], 2 ^ 64 - 1), ([], 2)] (atomik_open 0 zeroed).2
          (fun _ => 0)).1
        (fun _ => 0)).2.1.map fun m => decide (m.grid_save_percent < 0)) = some true := by
  refine ⟨by decide!, by decide!, by norm_num, by decide!, by decide!, by decide!⟩

/-- C19, amended: from a freshly opened device, after sends of nonzero lengths that sum to
less than `2 ^ 53`, `total_out ≤ total_in`, `grid_save_percent` is in `[0, 100)` and
`current_watts` is above 0.05 and at most 1351079888211149 / 2 ^ 53 (at most 0.15 in exact
arithmetic).  A send of length 0 keeps `total_in` and adds 1 to `total_out`; after an empty
send and a one-byte send `total_out = 2 > total_in = 1` and `grid_save_percent` is
negative. -/
theorem C19_counter_invariant (fl : ℚ → ℚ) (g0 g : atomik_device_internal_t)
    (calls : List (List Byte × Nat)) (data : List Byte) (rng r2 : Rng)
    (m : atomik_metrics_t) (hfl : fl = id ∨ fl = binary64) (h0 : g0.is_active = 0)
    (hnz : ∀ c ∈ calls, 1 ≤ c.2) (hsum : (calls.map fun c => c.2).sum < 2 ^ 53)
    (hg : g.total_in < 2 ^ 64) :
    (send_all fl .g_device calls (atomik_open 0 g0).2 rng).1.total_out
      ≤ (send_all fl .g_device calls (atomik_open 0 g0).2 rng).1.total_in ∧
    (∃ r, (atomik_get_metrics fl .g_device (some m)
            (send_all fl .g_device calls (atomik_open 0 g0).2 rng).1 r2).2.1 = some r ∧
      0 ≤ r.grid_save_percent ∧ r.grid_save_percent < 100 ∧
      5 / 100 < r.current_watts ∧ r.current_watts ≤ 1351079888211149 / 2 ^ 53 ∧
      (fl = id → r.current_watts ≤ 15 / 100)) ∧
    (atomik_secure_send fl .g_device data 0 g rng).2.1.total_in = g.total_in ∧
    (atomik_secure_send fl .g_device data 0 g rng).2.1.total_out
      = (g.total_out + 1) % 2 ^ 64 ∧
    (send_all fl .g_device [([], 0), ([72], 1)] (atomik_open 0 g0).2 rng).1.total_in = 1 ∧
    (send_all fl .g_device [([], 0), ([72], 1)] (atomik_open 0 g0).2 rng).1.total_out = 2 ∧
    ∃ r, (atomik_get_metrics fl .g_device (some m)
            (send_all fl .g_device [([], 0), ([72], 1)] (atomik_open 0 g0).2 rng).1
            r2).2.1 = some r ∧
      r.grid_save_percent < 0 := by
  have hopen : atomik_open 0 g0
      = (.g_device,
          { zeroed with device_id := 0, is_active := 1, sparsity_threshold := 90 }) := by
    simp [atomik_open, h0]
  have z1 : (atomik_open 0 g0).2.total_in = 0 := by rw [hopen]; rfl
  have z2 : (atomik_open 0 g0).2.total_out = 0 := by rw [hopen]; rfl
  have hc0 : compressed_len fl 0 = 1 := by
    rcases hfl with h | h <;> subst h <;> decide!
  have hc1 : compressed_len fl 1 = 1 := by
    rcases hfl with h | h <;> subst h <;> decide!
  obtain ⟨s1, s2⟩ := send_all_counters fl calls (atomik_open 0 g0).2 rng
    (by rw [z1]; norm_num) (by rw [z2]; norm_num)
  obtain ⟨le1, pos1⟩ := sum_compressed_le fl hfl calls hnz hsum
  rw [z1, Nat.zero_add, Nat.mod_eq_of_lt (by omega)] at s1
  rw [z2, Nat.zero_add, Nat.mod_eq_of_lt (by omega)] at s2
  obtain ⟨e1, e2⟩ := send_all_counters fl [([], 0), ([72], 1)] (atomik_open 0 g0).2 rng
    (by rw [z1]; norm_num) (by rw [z2]; norm_num)
  simp only [z1, z2, List.map_cons, List.map_nil, List.sum_cons, List.sum_nil, hc0, hc1]
    at e1 e2
  have hsend0 : (atomik_secure_send fl .g_device data 0 g rng).2.1.total_out
      = (g.total_out + compressed_len fl 0) % 2 ^ 64 := rfl
  rw [hc0] at hsend0
  refine ⟨by omega, ?_, ?_, hsend0, e1, e2, ?_⟩
  · exact metrics_bounds fl hfl _ m r2 (by omega) (by omega) (by omega)
  · show (g.total_in + 0) % 2 ^ 64 = g.total_in
    rw [Nat.add_zero, Nat.mod_eq_of_lt hg]
  · refine ⟨_, rfl, ?_⟩
    simp only [e1, e2]
    rcases hfl with h | h <;> subst h <;> decide!

/-- Witness of C19 in `double` arithmetic: sends of 15 and 2 bytes after `open(0)` on the
zeroed device leave `total_out = 2 ≤ total_in = 17`. -/
theorem C19_counter_invariant_witness :
    (send_all binary64 .g_device
        [([72, 69, 76, 76, 79, 72, 69, 76, 76, 79, 72, 69, 76, 76, 79], 15), ([1, 2], 2)]
        (atomik_open 0 zeroed).2 (fun _ => 0)).1.total_out
      ≤ (send_all binary64 .g_device
        [([72, 69, 76, 76, 79, 72, 69, 76, 76, 79, 72, 69, 76, 76, 79], 15), ([1, 2], 2)]
        (atomik_open 0 zeroed).2 (fun _ => 0)).1.total_in :=
  (C19_counter_invariant binary64 zeroed zeroed
    [([72, 69, 76, 76, 79, 72, 69, 76, 76, 79, 72, 69, 76, 76, 79], 15), ([1, 2], 2)] []
    (fun _ => 0) (fun _ => 0) ⟨0, 0, 0, 0, 0⟩ (Or.inr rfl) rfl (by decide) (by decide)
    (by decide)).1

end Atomik
